import Mathlib

/-!
Verification of the maestro task-runner (github.com/midbel/xsk snapshot).

This file shallow-embeds the parts of the Go source needed by the frozen
claims: the command registry and duplicate-name resolution (`Register`),
command lookup with default substitution and alias fallback (`lookup`),
dependency resolution (`resolveDependenciesBis`, `resolveDependencies`,
`executeDependencies`), the help-flag scan (`hasHelp`), remote dispatch
(`executeRemote`, `executeHost`), the lexer (`Next`, `readString`,
`readRune`), and the meta-directive decoder (`decodeMeta`).

Go machine integers are modelled as `Int` (no operation here approaches
overflow); Go maps are modelled as association lists (iteration order of a
Go map is unspecified; every property proved below is insensitive to that
order or exercises a single entry); Go slices are Lean lists; fallible Go
functions return `Except` / `Option`.  Loops whose termination is not
structural are given an explicit fuel parameter; a `none` result means the
fuel ran out, and theorems only ever inspect `some` results, which agree
with the Go semantics whenever the Go loop terminates.
-/

namespace Maestro

/-- Errors surfaced by the engine.  Mirrors the `error` values built with
`fmt.Errorf` / `errors.New` in maestro.go; each constructor corresponds to
one formatting site. -/
inductive Err where
  /-- `fmt.Errorf("%s: command not defined", name)` in `lookup`. -/
  | notDefined (name : String)
  /-- `fmt.Errorf("%s %w", cmd.Name, ErrDuplicate)` in `Register`. -/
  | duplicate (name : String)
  /-- `fmt.Errorf("DUPLICATE: unknown value %s", m.Duplicate)` in `Register`. -/
  | unknownDuplicate (policy : String)
  /-- `Suggest(err, name, all)` in `suggest`: the Suggest helper is not in
  the provided sources; modelled as a decoration of the base error carrying
  the unknown name (spec 4.3: the suggestion is purely informational). -/
  | suggested (name : String) (base : Err)
  /-- `ctx.Err()` after context cancellation. -/
  | cancelled
  /-- failure of one command execution (script exit, session failure...). -/
  | execFailed (name : String)
  /-- failure to open an ssh session / dial a host. -/
  | sessionFailed (host : String)
  /-- decoder: `unexpected(d.curr(), d.CurrentLine())`. -/
  | unexpectedToken
  /-- decoder: `fmt.Errorf("%s: unknown/unsupported meta", meta)`. -/
  | unknownMeta (name : String)
  /-- decoder: `fmt.Errorf("too many values")` in `parseString`. -/
  | tooManyValues
  /-- decoder: `errUndefined` — undefined variable reference. -/
  | undefinedVariable (name : String)
  /-- `strconv.ParseBool` / `strconv.ParseInt` failure. -/
  | badSyntax (lit : String)
deriving Repr, DecidableEq

/-- One dependency edge of a command.  The struct's own declaration is in a
repository file not included under src/, but its four fields are fixed by
their uses in maestro.go (`d.Name`, `d.Args`, `d.Bg`, `d.Optional`) and by
spec 3: `{target command name, literal argument list, background flag,
optional flag}`. -/
structure Dep where
  name : String
  args : List String
  bg : Bool
  optional : Bool
deriving Repr, DecidableEq

/-- The fields of a `*Single` command used by the engine code in
maestro.go: its name, its sorted alias list (`s.Alias`, searched with
`sort.SearchStrings` in `lookup`) and its dependency edges (`s.Deps`).
The remaining `CommandSettings` attributes (options, script lines, ...)
play no role in the claims settled here. -/
structure Single where
  name : String
  aliases : List String
  deps : List Dep
deriving Repr, DecidableEq

/-- A registered command: either a `*Single` or a `Combined` (Go:
`type Combined []Command`), the ordered list produced by the `append`
duplicate policy. -/
inductive Command where
  | single (s : Single)
  | combined (cs : List Command)
deriving Repr

/-- `cmd.Command()` for the commands above.  `Single.Command()` returns the
name (command.go `CommandSettings.Command`); the `Combined` receiver is in
a file missing from src/ and is never exercised by the theorems below
(only `Single`s are looked up), so it is given the name of its first
member. -/
def Command.commandName : Command → String
  | .single s => s.name
  | .combined (c :: _) => c.commandName
  | .combined [] => ""

/-- Association-list model of the Go map `m.Commands`. -/
abbrev Registry := List (String × Command)

/-- Go map read `m.Commands[name]`. -/
def mapFind (r : Registry) (name : String) : Option Command :=
  match r with
  | [] => none
  | (k, c) :: rest => if k = name then some c else mapFind rest name

/-- Go map write `m.Commands[name] = cmd`: replaces the binding in place
if present, otherwise adds it. -/
def mapInsert (r : Registry) (name : String) (cmd : Command) : Registry :=
  match r with
  | [] => [(name, cmd)]
  | (k, c) :: rest =>
      if k = name then (k, cmd) :: rest else (k, c) :: mapInsert rest name cmd

/-- The configuration record: `Maestro` with its embedded `MetaExec`,
`MetaAbout`, `MetaSSH` and `MetaHttp` structs (maestro.go and the decoder
file).  `Locals`, `Includes` and the ssh key/known-hosts values are left
out: no claim below reads them. -/
structure Mst where
  commands : Registry := []
  duplicate : String := "replace"
  remote : Bool := false
  noDeps : Bool := false
  withPref : Bool := false
  -- MetaExec
  workDir : String := ""
  dry : Bool := false
  ignore : Bool := false
  trace : Bool := false
  allCmds : List String := []
  dfault : String := ""
  before : List String := []
  after : List String := []
  errCmds : List String := []
  successCmds : List String := []
  -- MetaAbout
  file : String := "maestro.mf"
  author : String := ""
  email : String := ""
  version : String := "0.1.0"
  helpText : String := ""
  usage : String := ""
  -- MetaSSH
  sshParallel : Int := 0
  sshUser : String := ""
  sshPass : String := ""
  -- MetaHttp
  certFile : String := ""
  keyFile : String := ""
deriving Repr

/-! ### Go library helpers -/

/-- Go's byte-wise string `<` at code-point granularity (for UTF-8 text,
byte order and code-point order agree): lexicographic comparison of the
character lists. -/
def goStrLtL : List Char → List Char → Bool
  | [], [] => false
  | [], _ :: _ => true
  | _ :: _, [] => false
  | a :: as, b :: bs =>
    if a.toNat < b.toNat then true
    else if b.toNat < a.toNat then false
    else goStrLtL as bs

/-- Go `a < b` on strings. -/
def goStrLt (a b : String) : Bool := goStrLtL a.data b.data

/-- Go `a <= b` on strings: `!(b < a)`. -/
def goStrLe (a b : String) : Bool := !goStrLt b a

/-- `sort.Search(n, f)` from the Go standard library: binary search for
the smallest index `i` in `[0, n)` with `f i = true` (assuming `f` is
monotone), returning `n` when there is none.  Faithful translation of the
bisection loop `for i < j { h := (i+j)/2; if !f(h) { i = h+1 } else { j = h } }`;
the extra first argument is fuel bounding the iteration count, which
`goSearch` sets to `n`, enough since `j - i` strictly shrinks every
iteration. -/
def goSearchLoop (f : Nat → Bool) : Nat → Nat → Nat → Nat
  | 0, i, _ => i
  | fuel + 1, i, j =>
    if i < j then
      let mid := (i + j) / 2
      if f mid then goSearchLoop f fuel i mid else goSearchLoop f fuel (mid + 1) j
    else i

def goSearch (n : Nat) (f : Nat → Bool) : Nat :=
  goSearchLoop f n 0 n

/-- `sort.SearchStrings(a, x)`: `sort.Search(len(a), func(i) { return a[i] >= x })`. -/
def searchStrings (a : List String) (x : String) : Nat :=
  goSearch a.length (fun i => goStrLe x (a.getD i ""))

/-- Insertion of one string into a sorted list. -/
def sortInsert (x : String) : List String → List String
  | [] => [x]
  | y :: ys => if goStrLe x y then x :: y :: ys else y :: sortInsert x ys

/-- `sort.Strings`: sorts ascending.  Go's introsort and this insertion
sort produce the same list — with a total order, equal strings are
identical, so the sorted sequence is unique. -/
def sortStrings : List String → List String
  | [] => []
  | x :: xs => sortInsert x (sortStrings xs)

/-! ### Registration (maestro.go `Register`) -/

/-- maestro.go `Register`.  Note the subtlety in the `dupAppend` branch
when the current entry is already a `Combined`: the Go code runs
`curr = append(mul, cmd); break`, assigning the extended slice to the
*local* variable `curr` and never storing it back into `m.Commands`, so
the registry is left unchanged (even when `append` reuses the backing
array, the slice header stored in the map keeps its old length).  The
translation therefore returns the registry unmodified in that case. -/
def Register (m : Mst) (cmd : Single) : Except Err Mst :=
  match mapFind m.commands cmd.name with
  | none => .ok { m with commands := mapInsert m.commands cmd.name (.single cmd) }
  | some curr =>
    if m.duplicate = "error" then
      .error (.duplicate cmd.name)
    else if m.duplicate = "replace" ∨ m.duplicate = "" then
      .ok { m with commands := mapInsert m.commands cmd.name (.single cmd) }
    else if m.duplicate = "append" then
      match curr with
      | .combined _ => .ok m
      | _ =>
          .ok { m with commands :=
                  mapInsert m.commands cmd.name (.combined [curr, .single cmd]) }
    else .error (.unknownDuplicate m.duplicate)

/-! ### Lookup (maestro.go `lookup`, `suggest`, `prepare`) -/

/-- The alias fallback in `lookup`: iterate the registered commands and,
for each `*Single`, binary-search its sorted alias list.  Association-list
order stands in for the Go map's (unspecified) iteration order; the
properties proved below do not depend on which matching entry is found
first. -/
def aliasScan (r : Registry) (name : String) : Option Command :=
  match r with
  | [] => none
  | (_, c) :: rest =>
    match c with
    | .single s =>
        let i := searchStrings s.aliases name
        if i < s.aliases.length ∧ s.aliases.getD i "" = name then some c
        else aliasScan rest name
    | _ => aliasScan rest name

/-- maestro.go `lookup`: an empty name is replaced by the `.DEFAULT` meta
value, then the map is consulted, then the alias fallback. -/
def lookup (m : Mst) (name : String) : Except Err Command :=
  let name := if name = "" then m.dfault else name
  match mapFind m.commands name with
  | some c => .ok c
  | none =>
    match aliasScan m.commands name with
    | some c => .ok c
    | none => .error (.notDefined name)

/-- maestro.go `prepare`: `lookup` whose error is decorated with a
nearest-match suggestion (`m.suggest`). -/
def prepare (m : Mst) (name : String) : Except Err Command :=
  match lookup m name with
  | .ok c => .ok c
  | .error e => .error (.suggested name e)

/-! ### Help-flag detection (maestro.go `hasHelp`) -/

/-- maestro.go `hasHelp`: copy the arguments, sort them, run one
`sort.Search` whose predicate is
`"-h" <= as[i] || "-help" <= as[i] || "--help" <= as[i]`, and test
whether the single element found is one of the three help flags.
(Go compares strings byte-wise; UTF-8 byte order coincides with the
code-point order of Lean's `String` ordering.) -/
def hasHelp (args : List String) : Bool :=
  let as := sortStrings args
  let i := goSearch as.length
      (fun i => goStrLe "-h" (as.getD i "") ∨ goStrLe "-help" (as.getD i "")
        ∨ goStrLe "--help" (as.getD i ""))
  if i ≥ as.length then false
  else as.getD i "" = "-h" ∨ as.getD i "" = "-help" ∨ as.getD i "" = "--help"

/-! ### Dependency resolution (maestro.go `resolveDependenciesBis`, `resolve`) -/

/-- Execution nodes (the `executer` family).  `createDep` builds a
dependency node from the prepared command, the edge's argument list and
the recursively resolved sub-dependency list, then `ed.background = d.Bg`
sets its background flag; `trace(ex)` wraps a node when tracing is on;
`createMain` builds the root node with the four hook lists; `createTree`
wraps the whole resolved tree.  The constructors record exactly the data
those builders receive in maestro.go. -/
inductive Exec where
  | dep (cmd : Command) (args : List String) (background : Bool) (sub : List Exec)
  | traced (inner : Exec)
  | main (cmd : Command) (args : List String) (deps : List Exec)
      (pre post errHooks successHooks : List Command)
  | tree (withPref : Bool) (inner : Exec)

/-- The dependency edges the resolver iterates: a `*Single`'s `Deps`;
any other command contributes none (`s, ok := cmd.(*Single); if !ok
{ return nil, nil }`). -/
def depsOf : Command → List Dep
  | .single s => s.deps
  | _ => []

/-- The recursive closure `traverse` of maestro.go
`resolveDependenciesBis`, with the shared visited-name set `seen` threaded
explicitly: for each edge, a name already in `seen` is skipped; otherwise
the name is marked, the target is `prepare`d (an error drops an optional
edge and aborts otherwise), its own edges are traversed with the *same*
set, and a dependency node is built (wrapped in `trace` when `m.Trace`).
The Go recursion terminates because `seen` only grows; here a fuel
parameter bounds it (every recursive step, into a target's own edges or
on to the remaining edges, decrements it), `none` meaning the fuel ran
out. -/
def traverseDeps (m : Mst) : Nat → List Dep → List String →
    Option (Except Err (List Exec × List String))
  | _, [], seen => some (.ok ([], seen))
  | 0, _ :: _, _ => none
  | fuel + 1, d :: rest, seen =>
    if seen.contains d.name then traverseDeps m fuel rest seen
    else
      let seen := d.name :: seen
      match prepare m d.name with
      | .error e =>
          if d.optional then traverseDeps m fuel rest seen
          else some (.error e)
      | .ok c =>
        match traverseDeps m fuel (depsOf c) seen with
        | none => none
        | some (.error e) => some (.error e)
        | some (.ok (sub, seen)) =>
          let ed := Exec.dep c d.args d.bg sub
          let ex := if m.trace then Exec.traced ed else ed
          match traverseDeps m fuel rest seen with
          | none => none
          | some (.error e) => some (.error e)
          | some (.ok (nodes, seen)) => some (.ok (ex :: nodes, seen))

/-- maestro.go `resolveDependenciesBis`: run `traverse` on the root
command with a fresh visited set. -/
def resolveDependenciesBis (m : Mst) (cmd : Command) (fuel : Nat) :
    Option (Except Err (List Exec)) :=
  match traverseDeps m fuel (depsOf cmd) [] with
  | none => none
  | some (.error e) => some (.error e)
  | some (.ok (nodes, _)) => some (.ok nodes)

/-- maestro.go `resolveList`: look every hook name up, failing on the
first miss. -/
def resolveList (m : Mst) : List String → Except Err (List Command)
  | [] => .ok []
  | n :: rest =>
    match lookup m n with
    | .error e => .error e
    | .ok c =>
      match resolveList m rest with
      | .error e => .error e
      | .ok cs => .ok (c :: cs)

/-- The hook-list resolution in maestro.go `resolve`: the Go code writes
`root.pre, err = m.resolveList(m.Before)` four times and never checks
`err` before it is overwritten, so a failing hook lookup is silently
discarded and the field keeps the `nil` list; the translation therefore
drops the error. -/
def resolveListDiscard (m : Mst) (names : List String) : List Command :=
  match resolveList m names with
  | .ok cs => cs
  | .error _ => []

/-- maestro.go `resolve`: resolve the dependency tree (unless `NoDeps`),
build the root node with the four hook lists, wrap it in `trace` when
tracing is on, and wrap everything in the output-prefixing tree node
(`createTree` cannot fail on these inputs; its body is in a file missing
from src/ and spec 3 describes the wrapper as only adding consistent
output-prefixing). -/
def resolve (m : Mst) (cmd : Command) (args : List String) (fuel : Nat) :
    Option (Except Err Exec) :=
  let list :=
    if m.noDeps then some (Except.ok ([] : List Exec))
    else resolveDependenciesBis m cmd fuel
  match list with
  | none => none
  | some (.error e) => some (.error e)
  | some (.ok deps) =>
    let root := Exec.main cmd args deps
        (resolveListDiscard m m.before) (resolveListDiscard m m.after)
        (resolveListDiscard m m.errCmds) (resolveListDiscard m m.successCmds)
    let ex := if m.trace then Exec.traced root else root
    some (.ok (Exec.tree m.withPref ex))

mutual

/-- Names of the commands executed by one resolved execution node, in
execution order.  Modelled from the spec: the dependency-node executer
(its `Execute` body is in a repository file missing from src/) "executes
every foreground dependency node synchronously in declaration order ...
and launches every background dependency node as a concurrently running
task" after first running its own resolved sub-dependencies (spec 4.5);
each node runs its command exactly once per invocation.  Background
interleaving does not affect the multiset of executions, which is all the
theorems below inspect. -/
def runNames1 : Exec → List String
  | .dep c _ _ sub => runNames sub ++ [c.commandName]
  | .traced inner => runNames1 inner
  | .main c _ deps _ _ _ _ => runNames deps ++ [c.commandName]
  | .tree _ inner => runNames1 inner

/-- Names executed by a resolved forest: concatenation over the nodes. -/
def runNames : List Exec → List String
  | [] => []
  | e :: rest => runNames1 e ++ runNames rest

end

/-- How many nodes of a resolved forest execute the command named `n`. -/
def countName (n : String) (es : List Exec) : Nat :=
  (runNames es).count n

/-! ### Flat dependency resolution and execution
(maestro.go `resolveDependencies`, `executeDependencies`) -/

/-- maestro.go `resolveDependencies` (the older flat resolver used by
`executeDependencies`): depth-first post-order flattening of the declared
edges, with *no* visited set and *no* optional check — any lookup failure
aborts.  The Go recursion does not terminate on cyclic graphs, hence the
fuel. -/
def resolveFlat (m : Mst) : Nat → Command → Option (Except Err (List Dep))
  | 0, _ => none
  | fuel + 1, cmd =>
    let rec go : List Dep → Option (Except Err (List Dep))
      | [] => some (.ok [])
      | d :: rest =>
        match lookup m d.name with
        | .error e => some (.error e)
        | .ok c =>
          match resolveFlat m fuel c with
          | none => none
          | some (.error e) => some (.error e)
          | some (.ok set) =>
            match go rest with
            | none => none
            | some (.error e) => some (.error e)
            | some (.ok all) => some (.ok (set ++ [d] ++ all))
    go (depsOf cmd)

/-- One execution-log entry: a command name with the argument list it was
executed with. -/
abbrev Entry := String × List String

/-- maestro.go `executeCommand` without the output plumbing: run the
command (outcome given by `oracle`, standing in for `Command.Execute`,
whose body is in a file missing from src/) and suppress the error when the
top-level ignore-errors mode is set. -/
def executeCommandModel (m : Mst) (oracle : String → List String → Option Err)
    (c : Command) (args : List String) : Option Err :=
  match oracle c.commandName args with
  | some e => if m.ignore then none else some e
  | none => none

/-- Outcome of the `for i := range deps` loop of `executeDependencies`:
either an early `return err` (prepare failure of a mandatory edge, or a
failing mandatory foreground execution) with the foreground log so far, or
normal completion with the foreground log and the list of launched
background tasks (each task: its own execution log and its returned
error). -/
inductive DepLoopOut where
  | aborted (log : List Entry) (e : Err)
  | finished (log : List Entry) (bg : List (List Entry × Option Err))

mutual

/-- maestro.go `executeDependencies`: flatten the dependency list, then
walk it with a per-call visited set; background edges are launched in an
`errgroup` (the task first runs the dependency's own dependencies
recursively — an error there is the task's result — and then runs the
command itself, *discarding* `executeCommand`'s return value and returning
`nil`); foreground edges run synchronously, a failing mandatory one
aborting.  Finally `grp.Wait()` joins every launched task.  The returned
log lists the executions this call performed or awaited: foreground
executions in loop order followed by the joined background tasks' logs in
launch order (the real interleaving is concurrent; the theorems below
only use membership and counts, which the interleaving cannot change).
Background tasks abandoned by an early return do not contribute.
`grp.Wait` returns the error of the first failing task in completion
order; it is modelled as launch order, and the theorems exercise it only
where at most one task can err. -/
def executeDependencies (m : Mst) (oracle : String → List String → Option Err) :
    Nat → Command → Option (List Entry × Option Err)
  | 0, _ => none
  | fuel + 1, cmd =>
    match resolveFlat m (fuel + 1) cmd with
    | none => none
    | some (.error e) => some ([], some e)
    | some (.ok deps) =>
      match execDepsLoop m oracle fuel deps [] with
      | none => none
      | some (.aborted log e) => some (log, some e)
      | some (.finished log bg) =>
          some (log ++ (bg.map Prod.fst).flatten,
                (bg.map Prod.snd).findSome? id)

/-- The body of the dependency loop, threading the visited set; every
recursive step (into a background task or on to the remaining edges)
decrements the fuel. -/
def execDepsLoop (m : Mst) (oracle : String → List String → Option Err) :
    Nat → List Dep → List String → Option DepLoopOut
  | _, [], _ => some (.finished [] [])
  | 0, _ :: _, _ => none
  | fuel + 1, d :: rest, seen =>
    if seen.contains d.name then execDepsLoop m oracle fuel rest seen
    else
      let seen := d.name :: seen
      match prepare m d.name with
      | .error e =>
          if d.optional then execDepsLoop m oracle fuel rest seen
          else some (.aborted [] e)
      | .ok c =>
        if d.bg then
          match executeDependencies m oracle fuel c with
          | none => none
          | some (sublog, some e) =>
            match execDepsLoop m oracle fuel rest seen with
            | none => none
            | some (.aborted log e') => some (.aborted log e')
            | some (.finished log bg) =>
                some (.finished log ((sublog, some e) :: bg))
          | some (sublog, none) =>
            let tlog := sublog ++ [(c.commandName, d.args)]
            match execDepsLoop m oracle fuel rest seen with
            | none => none
            | some (.aborted log e') => some (.aborted log e')
            | some (.finished log bg) =>
                some (.finished log ((tlog, none) :: bg))
        else
          match executeCommandModel m oracle c d.args with
          | some e =>
              if d.optional then
                match execDepsLoop m oracle fuel rest seen with
                | none => none
                | some (.aborted log e') =>
                    some (.aborted ((c.commandName, d.args) :: log) e')
                | some (.finished log bg) =>
                    some (.finished ((c.commandName, d.args) :: log) bg)
              else some (.aborted [(c.commandName, d.args)] e)
          | none =>
            match execDepsLoop m oracle fuel rest seen with
            | none => none
            | some (.aborted log e') =>
                some (.aborted ((c.commandName, d.args) :: log) e')
            | some (.finished log bg) =>
                some (.finished ((c.commandName, d.args) :: log) bg)

end

/-! ### Remote execution (maestro.go `executeRemote`, `executeHost`) -/

/-- The synchronisation actions `executeRemote` performs, in program
order: `sema.Acquire(ctx, n)` and `grp.Go` for one host. -/
inductive RemoteEvent where
  | acquire (n : Int)
  | launch (host : String)
deriving Repr, DecidableEq

/-- The spec's description of the launched host set, stated in the
spec's own words for comparison with the loop below: "computes the
distinct target host set (in first-seen order, deduplicated)". -/
def dedupFirstSeen (l : List String) : List String :=
  go l []
where
  go : List String → List String → List String
    | [], _ => []
    | h :: rest, seen =>
      if seen.contains h then go rest seen else h :: go rest (h :: seen)

/-- The target loop of maestro.go `executeRemote`: hosts already in the
`seen` map are skipped; for a new host one semaphore unit is acquired
(`sema.Acquire(ctx, 1)`) and then its task is launched (`grp.Go`). -/
def remoteLoop : List String → List String → List RemoteEvent
  | [], _ => []
  | h :: rest, seen =>
    if seen.contains h then remoteLoop rest seen
    else RemoteEvent.acquire 1 :: RemoteEvent.launch h :: remoteLoop rest (h :: seen)

/-- What maestro.go `executeRemote` computes and does, for the claims'
purposes: the weighted-semaphore capacity — `m.MetaSSH.Parallel`, first
set to `len(cmd.Targets())` (the length of the *full* target list,
duplicates included) when the configured value is not positive — and the
ordered acquire/launch event trace of the target loop, closed by the
barrier `sema.Acquire(ctx, parallel)` before `grp.Wait()`.  Session
outcomes play no role here. -/
def executeRemote (m : Mst) (targets : List String) :
    Int × List RemoteEvent :=
  let capacity : Int :=
    if m.sshParallel ≤ 0 then (targets.length : Int) else m.sshParallel
  (capacity, remoteLoop targets [] ++ [RemoteEvent.acquire capacity])

/-- The hosts whose tasks an event trace launches, in order. -/
def launches (events : List RemoteEvent) : List String :=
  events.filterMap fun e =>
    match e with
    | .launch h => some h
    | _ => none

/-- The per-host session loop of maestro.go `executeHost`, after the
client dial: for script line `i` it first checks the context (`select`
on `ctx.Done()`; if cancellation has been observed, return `ctx.Err()`
without opening anything), then opens one session (`client.NewSession`;
a failure aborts this host), then runs the line to completion
(`sess.Run` inside `exec`; the loop never interrupts a run in progress —
its error only aborts the *following* iterations).  `cancelled i` tells
whether cancellation is observed at check `i`; `sessOpen i` / `runOk i`
give the session-open and run outcomes.  Returns the indices of opened
sessions, the indices of runs that were executed to completion, and the
loop's result. -/
def executeHostLoop (host : String) (cancelled sessOpen runOk : Nat → Bool) :
    Nat → List String → List Nat × List Nat × Option Err
  | _, [] => ([], [], none)
  | i, _ :: rest =>
    if cancelled i then ([], [], some .cancelled)
    else if !sessOpen i then ([], [], some (.sessionFailed host))
    else if !runOk i then ([i], [i], some (.execFailed host))
    else
      let (opened, ran, res) := executeHostLoop host cancelled sessOpen runOk (i + 1) rest
      (i :: opened, i :: ran, res)

/-- maestro.go `executeHost`: the session loop started at index 0. -/
def executeHost (host : String) (cancelled sessOpen runOk : Nat → Bool)
    (scripts : List String) : List Nat × List Nat × Option Err :=
  executeHostLoop host cancelled sessOpen runOk 0 scripts

/-! ### The lexer (lexer file: `Next`, `readRune`, `readString`, ...)

The Go lexer walks a byte slice decoding UTF-8 runes; `x.char` is a rune
that is either a code point or one of the negative markers (`eof = -1`,
..., `invalid = -9`).  The embedding works at rune granularity over a
`List Char` (so positions count runes, not bytes — only their relative
order matters to the code) and keeps `x.char` as an `Int`.  Inputs that
are not valid UTF-8 are outside this model; every theorem below uses
ASCII input.  Each Go `for` loop whose progress is not structural gets a
fuel parameter; `none` means the fuel was exhausted. -/

def eofR : Int := -1
def metaT : Int := -2
def identT : Int := -3
def valueT : Int := -4
def variableT : Int := -5
def commandT : Int := -6
def scriptT : Int := -7
def dependencyT : Int := -8
def invalidR : Int := -9

def spaceR : Int := 32
def tabR : Int := 9
def periodR : Int := 46
def colonR : Int := 58
def percentR : Int := 37
def lparenR : Int := 40
def rparenR : Int := 41
def commentR : Int := 35
def quoteR : Int := 34
def tickR : Int := 96
def equalR : Int := 61
def commaR : Int := 44
def nlR : Int := 10
def backslashR : Int := 92
def plusR : Int := 43
def minusR : Int := 45

def lexDefault : Nat := 0
def lexValue : Nat := 256
def lexDeps : Nat := 512
def lexScript : Nat := 768
def lexNoop : Nat := 0
def lexProps : Nat := 1
def lexMeta : Nat := 2

/-- A token: literal text and type (`rune`: a punctuation code point or a
negative kind marker). -/
structure Tok where
  literal : String := ""
  typ : Int := 0
deriving Repr, DecidableEq

/-- The lexer state struct. -/
structure Lexer where
  inner : List Char
  state : Nat := lexDefault
  char : Int := 0
  pos : Int := 0
  next : Int := 0
  line : Int := 1
  column : Int := 0
deriving Repr, DecidableEq

def charAt (l : List Char) (i : Int) : Option Char :=
  if h : 0 ≤ i ∧ i.toNat < l.length then some (l.get ⟨i.toNat, h.2⟩) else none

/-- `string(x.inner[a:b])`. -/
def sliceStr (l : List Char) (a b : Int) : String :=
  String.mk ((l.drop a.toNat).take (b - a).toNat)

def isSpaceR (c : Int) : Bool := c = spaceR ∨ c = tabR ∨ c = nlR
def isQuoteR (c : Int) : Bool := c = quoteR ∨ c = tickR
def isCommentR (c : Int) : Bool := c = commentR
def isIdentR (c : Int) : Bool := (97 ≤ c ∧ c ≤ 122) ∨ (65 ≤ c ∧ c ≤ 90)
def isDigitR (c : Int) : Bool := 48 ≤ c ∧ c ≤ 57

/-- `b.WriteRune(r)`: a negative (marker) rune is encoded by Go as the
replacement character U+FFFD. -/
def writeRune (b : List Char) (r : Int) : List Char :=
  b ++ [if 0 ≤ r then Char.ofNat r.toNat else Char.ofNat 0xFFFD]

/-- lexer `readRune`: once the current rune is a marker (`eof`/`invalid`)
and some rune has been consumed (`x.pos > 0`), the call is a no-op —
this is the line that makes the unterminated-construct loops spin.
Otherwise decode the rune at `x.next` (end of input gives the `eof`
marker), update the line/column bookkeeping, and advance. -/
def Lexer.readRune (x : Lexer) : Lexer :=
  if x.pos > 0 ∧ (x.char = eofR ∨ x.char = invalidR) then x
  else
    let decoded := charAt x.inner x.next
    let newChar : Int := match decoded with
      | some c => Int.ofNat c.toNat
      | none => eofR
    let n : Int := match decoded with
      | some _ => 1
      | none => 0
    let bump := (x.inner.take x.next.toNat).getLast? = some '\n'
    { x with char := newChar,
             line := if bump then x.line + 1 else x.line,
             column := (if bump then 0 else x.column) + 1,
             pos := x.next,
             next := x.next + n }

/-- lexer `unreadRune`.  (`utf8.RuneLen` of a negative rune is `-1` in Go,
so unreading a marker moves `pos` forward; at rune granularity a real
rune has length 1.) -/
def Lexer.unreadRune (x : Lexer) : Lexer :=
  let bump := (x.inner.take x.pos.toNat).getLast? = some '\n' ∧ x.line > 1
  let runeLen : Int := if 0 ≤ x.char then 1 else -1
  { x with line := if bump then x.line - 1 else x.line,
           column := x.column - 1,
           next := x.pos,
           pos := x.pos - runeLen }

/-- lexer `peekRune`: at end of input `utf8.DecodeRune` of the empty
slice returns `utf8.RuneError` (U+FFFD), not the `eof` marker. -/
def Lexer.peekRune (x : Lexer) : Int :=
  match charAt x.inner x.next with
  | some c => Int.ofNat c.toNat
  | none => 0xFFFD

/-- lexer `skipSpace` (fueled). -/
def skipSpace : Nat → Lexer → Option Lexer
  | 0, _ => none
  | fuel + 1, x => if isSpaceR x.char then skipSpace fuel x.readRune else some x

/-- The loop of lexer `readString`: stop at the closing delimiter; inside
a double-quoted string a backslash whose lookahead is a quote consumes the
backslash first (escaping); append the current rune and advance.  When
the delimiter never comes, `x.char` reaches the `eof` marker, which is
neither the delimiter nor a backslash, and `readRune` is then a no-op:
the loop body repeats on an unchanged lexer. -/
def readStringLoop (ticky : Bool) (eos : Int) :
    Nat → Lexer → List Char → Option (Lexer × List Char)
  | 0, _, _ => none
  | fuel + 1, x, b =>
    if x.char = eos then some (x, b)
    else
      let x := if ¬ticky ∧ x.char = backslashR ∧ x.peekRune = quoteR
               then x.readRune else x
      readStringLoop ticky eos fuel x.readRune (writeRune b x.char)

/-- `strings.TrimLeft(lit, "\n\t ")`. -/
def trimLeftWs (s : String) : String :=
  String.mk (s.data.dropWhile fun c => c = '\n' ∨ c = '\t' ∨ c = ' ')

/-- lexer `readString`. -/
def readString (fuel : Nat) (x : Lexer) : Option (Lexer × Tok) :=
  let ticky := x.char = tickR
  let eos := if ticky then tickR else quoteR
  match readStringLoop ticky eos fuel x.readRune [] with
  | none => none
  | some (x, b) =>
    let lit := String.mk b
    let lit := if ticky then trimLeftWs lit else lit
    some (x, { literal := lit, typ := valueT })

/-- The known command keywords re-tagging bare identifiers.  The
`commands` map itself is in a repository file missing from src/; modelled
from the spec (4.1): "a bare identifier matching a known command keyword
(e.g. \"include\", \"export\", \"delete\", \"alias\")". -/
def keywordSet : List String := ["include", "export", "delete", "alias"]

/-- The loop of lexer `readIdent` (fueled), returning the lexer after the
last identifier rune. -/
def readIdentLoop : Nat → Lexer → Option Lexer
  | 0, _ => none
  | fuel + 1, x =>
    if isIdentR x.char ∨ isDigitR x.char then readIdentLoop fuel x.readRune
    else some x

/-- lexer `readIdent`: scan letters/digits, slice the literal, re-tag
keywords, unread the stopping rune. -/
def readIdent (fuel : Nat) (x : Lexer) : Option (Lexer × Tok) :=
  let pos0 := x.pos
  match readIdentLoop fuel x with
  | none => none
  | some x =>
    let lit := sliceStr x.inner pos0 x.pos
    let typ := if keywordSet.contains lit then commandT else identT
    some (x.unreadRune, { literal := lit, typ := typ })

/-- The loop of lexer `readValue` (fueled): stop (and unread) at space,
newline, comma or closing paren; at end of input `x.char` is the `eof`
marker, which matches none of these, and the loop spins. -/
def readValueLoop (pos0 : Int) : Nat → Lexer → Option (Lexer × Tok)
  | 0, _ => none
  | fuel + 1, x =>
    if x.char = spaceR ∨ x.char = nlR ∨ x.char = commaR ∨ x.char = rparenR then
      some (x.unreadRune, { literal := sliceStr x.inner pos0 x.pos, typ := valueT })
    else readValueLoop pos0 fuel x.readRune

def readValue (fuel : Nat) (x : Lexer) : Option (Lexer × Tok) :=
  readValueLoop x.pos fuel x

/-- The loop of lexer `readComment` (fueled): everything up to the next
newline. -/
def readCommentLoop (pos0 : Int) : Nat → Lexer → Option (Lexer × Tok)
  | 0, _ => none
  | fuel + 1, x =>
    if x.char = nlR then
      some (x, { literal := sliceStr x.inner pos0 x.pos, typ := Int.ofNat commentR.toNat })
    else readCommentLoop pos0 fuel x.readRune

/-- lexer `readComment`. -/
def readComment (fuel : Nat) (x : Lexer) : Option (Lexer × Tok) :=
  let x := x.readRune
  match (if x.char = spaceR then skipSpace fuel x else some x) with
  | none => none
  | some x => readCommentLoop x.pos fuel x

/-- The loop of lexer `readVariable` (fueled): scan to the closing paren,
any space or newline inside making the token invalid. -/
def readVariableLoop (pos0 : Int) : Nat → Lexer → Option (Lexer × Tok)
  | 0, _ => none
  | fuel + 1, x =>
    if x.char = rparenR then
      some (x, { literal := sliceStr x.inner pos0 x.pos, typ := variableT })
    else if x.char = spaceR ∨ x.char = nlR then
      some (x, { typ := invalidR })
    else readVariableLoop pos0 fuel x.readRune

/-- lexer `readVariable`: `%` must be followed by `(`. -/
def readVariable (fuel : Nat) (x : Lexer) : Option (Lexer × Tok) :=
  let x := x.readRune
  if x.char ≠ lparenR then some (x, { typ := invalidR })
  else
    let x := x.readRune
    readVariableLoop x.pos fuel x

/-- lexer `nextValue`. -/
def nextValue (fuel : Nat) (x : Lexer) : Option (Lexer × Tok) :=
  match (if x.char = spaceR then skipSpace fuel x else some x) with
  | none => none
  | some x =>
    if x.char = nlR ∨ x.char = commaR ∨ x.char = rparenR then
      some (x, { typ := x.char })
    else if x.char = minusR then
      some (x, { literal := "-", typ := valueT })
    else if isQuoteR x.char then readString fuel x
    else if x.char = percentR then readVariable fuel x
    else readValue fuel x

/-- lexer `nextDependency`. -/
def nextDependency (fuel : Nat) (x : Lexer) : Option (Lexer × Tok) :=
  match (if x.char = spaceR then skipSpace fuel x else some x) with
  | none => none
  | some x =>
    if isIdentR x.char then
      match readIdent fuel x with
      | none => none
      | some (x, t) => some (x, { t with typ := dependencyT })
    else if x.char = nlR ∨ x.char = plusR then some (x, { typ := x.char })
    else some (x, { typ := invalidR })

/-- lexer `nextDefault`. -/
def nextDefault (fuel : Nat) (x : Lexer) : Option (Lexer × Tok) :=
  match skipSpace fuel x with
  | none => none
  | some x =>
    if isIdentR x.char then readIdent fuel x
    else if isQuoteR x.char then readString fuel x
    else if isCommentR x.char then readComment fuel x
    else if x.char = periodR then
      match readIdent fuel x.readRune with
      | none => none
      | some (x, t) => some (x, { t with typ := metaT })
    else some (x, { typ := x.char })

/-- The `done()` predicate of lexer `nextScript`. -/
def scriptDone (x : Lexer) : Bool :=
  x.char = eofR ∨
    (x.char = nlR ∧ (¬isSpaceR x.peekRune ∨ x.peekRune = eofR ∨ x.peekRune = commentR))

/-- `strings.TrimSpace`. -/
def trimSpaceStr (s : String) : String :=
  let ws := fun c => c = ' ' ∨ c = '\t' ∨ c = '\n' ∨ c = '\r' ∨ c = '\x0b' ∨ c = '\x0c'
  String.mk (((s.data.dropWhile ws).reverse.dropWhile ws).reverse)

/-- The loop of lexer `nextScript` (fueled). -/
def nextScriptLoop : Nat → Lexer → List Char → Option (Lexer × List Char)
  | 0, _, _ => none
  | fuel + 1, x, b =>
    if scriptDone x then some (x, b)
    else
      if x.char = nlR ∧ x.peekRune ≠ nlR then
        let b := writeRune b x.char
        match skipSpace fuel x.readRune with
        | none => none
        | some x => nextScriptLoop fuel x.readRune (writeRune b x.char)
      else nextScriptLoop fuel x.readRune (writeRune b x.char)

/-- lexer `nextScript`. -/
def nextScript (fuel : Nat) (x : Lexer) : Option (Lexer × Tok) :=
  match nextScriptLoop fuel x [] with
  | none => none
  | some (x, b) =>
      some (x, { literal := trimSpaceStr (String.mk b), typ := scriptT })

/-- lexer `updateState`: the packed-flag transition table, with the same
bitwise operations as the Go source; returns the updated lexer and the
repeat flag. -/
def updateState (x : Lexer) (t : Tok) : Lexer × Bool :=
  if t.typ = colonR then ({ x with state := lexDeps ||| lexNoop }, false)
  else if t.typ = equalR ∨ t.typ = commandT then
    ({ x with state := x.state ||| lexValue }, false)
  else if t.typ = lparenR ∨ t.typ = commaR then
    ({ x with state := lexDefault ||| lexProps }, false)
  else if t.typ = nlR then
    if x.state &&& 0xFF00 = lexDeps then
      ({ x with state := x.state ||| lexScript }, true)
    else ({ x with state := lexDefault ||| lexNoop }, false)
  else if t.typ = rparenR then ({ x with state := lexDefault ||| lexNoop }, false)
  else if t.typ = scriptT then
    ({ x with state := lexDefault ||| lexNoop }, t.literal = "")
  else (x, false)

/-- lexer `Next`: return `eof`/`invalid` immediately; otherwise dispatch
on the major mode; run the property sub-mode whitespace swallowing after
a value token; update the state, repeating when `updateState` asks for
it; finally advance one rune and return the token. -/
def lexNext : Nat → Lexer → Option (Tok × Lexer)
  | 0, _ => none
  | fuel + 1, x =>
    if x.char = eofR ∨ x.char = invalidR then some ({ typ := x.char }, x)
    else
      let step : Option (Lexer × Tok) :=
        let st := x.state &&& 0xFF00
        if st = lexValue then
          match nextValue fuel x with
          | none => none
          | some (x, t) =>
            if x.state &&& 0xFF = lexProps ∧ isSpaceR x.peekRune then
              match skipSpace fuel x.readRune with
              | none => none
              | some x2 => some (x2.unreadRune, t)
            else some (x, t)
        else if st = lexScript then nextScript fuel x
        else if st = lexDeps then nextDependency fuel x
        else nextDefault fuel x
      match step with
      | none => none
      | some (x, t) =>
        let (x, rep) := updateState x t
        if rep then lexNext fuel x
        else some (t, x.readRune)

/-- lexer `Lex`: load the input, start in default mode at line 1, and
read the first rune. -/
def lexInit (input : List Char) : Lexer :=
  Lexer.readRune { inner := input, state := lexDefault, line := 1 }

/-! ### The meta-directive decoder (decoder file: `decodeMeta`)

The decoder consumes `Token`s produced by a `Scanner` whose file is not
under src/.  The token *kinds* it dispatches on (`Ident`, `Assign`,
`Eol`, `Comment`, `String`, `Quote`, `Variable`, `Blank`, ...) and the
`Token` predicates (`IsValue`, `IsVariable`, `IsBlank`, `IsEOF`) are
modelled from the spec (3: token kinds "identifier, command-keyword,
meta-directive, variable-reference, quoted/bare value, punctuation ...";
4.2: a value is a bare value, a quoted string, or a variable reference).
The decoder functions themselves (`decodeMeta`, `parseString`,
`parseStringList`, `parseBool`, `parseInt`, `decodeValue`, `decodeQuote`,
`ensureEOL`) are translated from the decoder source.  A single frame is
modelled (no `include` is exercised): the token stream is a list, the
current token its head, end of stream an implicit `Eof` token. -/

/-- Token kinds of the scanner, modelled from the spec. -/
inductive TokT where
  | ident | stringLit | number | boolean | variable | quote
  | assign | appendAssign | eol | comment | blank
  | meta | keyword | hidden | begList | endList | comma
  | script | begScript | endScript | dependency | eofT
deriving Repr, DecidableEq

/-- A scanner token: kind and literal. -/
structure Tok2 where
  typ : TokT
  lit : String := ""
deriving Repr, DecidableEq

/-- `Token.IsValue`, modelled from the spec: bare values (identifiers,
numbers, booleans, plain strings), quoted strings and variable
references. -/
def Tok2.isValue (t : Tok2) : Bool :=
  match t.typ with
  | .ident | .stringLit | .number | .boolean | .variable | .quote => true
  | _ => false

def Tok2.isVariable (t : Tok2) : Bool := t.typ = .variable

def Tok2.isBlank (t : Tok2) : Bool := t.typ = .blank

/-- The variable environment (`internal/env`, not under src/), modelled
from the spec (3): a chain of scopes mapping a name to an ordered list of
string values; lookup walks outward; an undefined variable is an error. -/
abbrev Scopes := List (List (String × List String))

def resolveVar (scopes : Scopes) (name : String) : Except Err (List String) :=
  match scopes with
  | [] => .error (.undefinedVariable name)
  | sc :: outer =>
    match sc.find? (fun p => p.1 = name) with
    | some p => .ok p.2
    | none => resolveVar outer name

/-- Decoder state: the remaining token stream of the single frame, the
configuration being populated, and the local scope chain. -/
structure DecSt where
  toks : List Tok2
  mst : Mst
  locals : Scopes := [[]]
deriving Repr

/-- `d.curr()`: the head token, an `Eof` token once the stream is
exhausted. -/
def DecSt.curr (d : DecSt) : Tok2 :=
  d.toks.headD { typ := .eofT }

/-- `d.next()`. -/
def DecSt.advance (d : DecSt) : DecSt :=
  { d with toks := d.toks.tail }

/-- `d.done()`. -/
def DecSt.isDone (d : DecSt) : Bool :=
  d.curr.typ = .eofT

/-- `midbel/slices.AppendValues` (external library): distributes the new
fragments over the value rows accumulated so far; each row is later
joined with an empty separator by `decodeValue`.  Only singleton shapes
are exercised by the theorems, on which any distribution law agrees. -/
def appendValues (str : List (List String)) (tmp : List String) :
    List (List String) :=
  match str with
  | [] => tmp.map fun t => [t]
  | _ => str.flatMap fun row => tmp.map fun t => row ++ [t]

/-- decoder `decodeQuote` loop: collect literals (resolving variables,
a multi-valued variable being an error) up to the closing `Quote` token,
which is left for the caller's `d.next()`. -/
def decodeQuoteLoop : Nat → DecSt → List String →
    Option (Except Err (String × DecSt))
  | 0, _, _ => none
  | fuel + 1, d, str =>
    if ¬d.isDone ∧ d.curr.typ ≠ .quote then
      if d.curr.isVariable then
        match resolveVar d.locals d.curr.lit with
        | .error e => some (.error e)
        | .ok vs =>
          if vs.length ≠ 1 then some (.error .tooManyValues)
          else decodeQuoteLoop fuel d.advance (str ++ [vs.headD ""])
      else decodeQuoteLoop fuel d.advance (str ++ [d.curr.lit])
    else
      if d.curr.typ ≠ .quote then some (.error .unexpectedToken)
      else some (.ok (String.join str, d))

/-- decoder `decodeQuote`. -/
def decodeQuote (fuel : Nat) (d : DecSt) : Option (Except Err (String × DecSt)) :=
  decodeQuoteLoop fuel d.advance []

/-- decoder `decodeValue` loop: while the current token is a value,
accumulate its fragments (`AppendValues`) and advance. -/
def decodeValueLoop : Nat → DecSt → List (List String) →
    Option (Except Err (List (List String) × DecSt))
  | 0, _, _ => none
  | fuel + 1, d, str =>
    if d.curr.isValue then
      if d.curr.isVariable then
        match resolveVar d.locals d.curr.lit with
        | .error e => some (.error e)
        | .ok vs => decodeValueLoop fuel d.advance (appendValues str vs)
      else if d.curr.typ = .quote then
        match decodeQuote fuel d with
        | none => none
        | some (.error e) => some (.error e)
        | some (.ok (s, d)) => decodeValueLoop fuel d.advance (appendValues str [s])
      else decodeValueLoop fuel d.advance (appendValues str [d.curr.lit])
    else some (.ok (str, d))

/-- decoder `decodeValue`: each accumulated row joined with an empty
separator. -/
def decodeValue (fuel : Nat) (d : DecSt) :
    Option (Except Err (List String × DecSt)) :=
  match decodeValueLoop fuel d [] with
  | none => none
  | some (.error e) => some (.error e)
  | some (.ok (str, d)) => some (.ok (str.map String.join, d))

/-- The loop of decoder `skip` over the remaining stream. -/
def skipTokList (k : TokT) : List Tok2 → List Tok2
  | [] => []
  | t :: rest => if t.typ = k then skipTokList k rest else t :: rest

/-- decoder `skipBlank` / `skipNL` / `skipComment` share `skip(kind)`:
drop tokens of the given kind.  (The decoder only ever skips `Blank`,
`Eol` and `Comment`, never the end-of-stream token.) -/
def skipTok (k : TokT) (d : DecSt) : DecSt :=
  { d with toks := skipTokList k d.toks }

/-- decoder `parseStringList` loop. -/
def parseStringListLoop : Nat → DecSt → List String →
    Option (Except Err (List String × DecSt))
  | 0, _, _ => none
  | fuel + 1, d, str =>
    if d.isDone then some (.ok (str, d))
    else
      match decodeValue fuel d with
      | none => none
      | some (.error e) => some (.error e)
      | some (.ok (xs, d)) =>
        if ¬d.curr.isBlank then some (.ok (str ++ xs, d))
        else parseStringListLoop fuel (skipTok .blank d) (str ++ xs)

/-- decoder `parseStringList`: an immediate end of line (or comment)
yields the empty list. -/
def parseStringList (fuel : Nat) (d : DecSt) :
    Option (Except Err (List String × DecSt)) :=
  if d.curr.typ = .eol ∨ d.curr.typ = .comment then some (.ok ([], d))
  else parseStringListLoop fuel d []

/-- decoder `parseString`: an immediate end of line (or comment) yields
the empty string; otherwise exactly one decoded value is required. -/
def parseString (fuel : Nat) (d : DecSt) :
    Option (Except Err (String × DecSt)) :=
  if d.curr.typ = .eol ∨ d.curr.typ = .comment then some (.ok ("", d))
  else if ¬d.curr.isValue then some (.error .unexpectedToken)
  else
    match decodeValue fuel d with
    | none => none
    | some (.error e) => some (.error e)
    | some (.ok (str, d)) =>
      if str.length ≠ 1 then some (.error .tooManyValues)
      else some (.ok (str.headD "", d))

/-- `strconv.ParseBool`. -/
def goParseBool (s : String) : Except Err Bool :=
  if s = "1" ∨ s = "t" ∨ s = "T" ∨ s = "true" ∨ s = "TRUE" ∨ s = "True" then .ok true
  else if s = "0" ∨ s = "f" ∨ s = "F" ∨ s = "false" ∨ s = "FALSE" ∨ s = "False" then
    .ok false
  else .error (.badSyntax s)

/-- Digits of one char in the given base, if valid. -/
def digitVal (base : Nat) (c : Char) : Option Nat :=
  let v :=
    if '0' ≤ c ∧ c ≤ '9' then some (c.toNat - '0'.toNat)
    else if 'a' ≤ c ∧ c ≤ 'z' then some (c.toNat - 'a'.toNat + 10)
    else if 'A' ≤ c ∧ c ≤ 'Z' then some (c.toNat - 'A'.toNat + 10)
    else none
  match v with
  | some v => if v < base then some v else none
  | none => none

def digitsVal (base : Nat) : List Char → Option Nat → Option Nat
  | [], acc => acc
  | c :: rest, acc =>
    match acc, digitVal base c with
    | some a, some v => digitsVal base rest (some (a * base + v))
    | _, _ => none

/-- `strconv.ParseInt(s, 0, 64)`: optional sign, then base detection by
prefix (`0x`/`0o`/`0b`, a bare leading `0` meaning octal), then digits.
(Digit-group underscores, which Go accepts in places, are not modelled;
the theorems use plain decimals.) -/
def goParseInt (s : String) : Except Err Int :=
  let (neg, rest) :=
    match s.data with
    | '-' :: r => (true, r)
    | '+' :: r => (false, r)
    | r => (false, r)
  let (base, digits) :=
    match rest with
    | '0' :: 'x' :: r => (16, r)
    | '0' :: 'X' :: r => (16, r)
    | '0' :: 'o' :: r => (8, r)
    | '0' :: 'O' :: r => (8, r)
    | '0' :: 'b' :: r => (2, r)
    | '0' :: 'B' :: r => (2, r)
    | '0' :: c :: r => (8, c :: r)
    | r => (10, r)
  if digits.isEmpty then
    match rest with
    | ['0'] => .ok 0
    | _ => .error (.badSyntax s)
  else
    match digitsVal base digits (some 0) with
    | none => .error (.badSyntax s)
    | some n => .ok (if neg then -(n : Int) else (n : Int))

/-- decoder `parseBool`. -/
def parseBool (fuel : Nat) (d : DecSt) : Option (Except Err (Bool × DecSt)) :=
  match parseString fuel d with
  | none => none
  | some (.error e) => some (.error e)
  | some (.ok (str, d)) =>
    if str = "" then some (.ok (false, d))
    else
      match goParseBool str with
      | .error e => some (.error e)
      | .ok b => some (.ok (b, d))

/-- decoder `parseInt`. -/
def parseInt (fuel : Nat) (d : DecSt) : Option (Except Err (Int × DecSt)) :=
  match parseString fuel d with
  | none => none
  | some (.error e) => some (.error e)
  | some (.ok (str, d)) =>
    if str = "" then some (.ok (0, d))
    else
      match goParseInt str with
      | .error e => some (.error e)
      | .ok n => some (.ok (n, d))

/-- decoder `ensureEOL`: the current token must be an end of line or a
comment, and is consumed. -/
def ensureEOL (d : DecSt) : Except Err DecSt :=
  match d.curr.typ with
  | .eol | .comment => .ok d.advance
  | _ => .error .unexpectedToken

/-- The twenty recognized meta names. -/
def metaNames : List String :=
  ["WORKDIR", "TRACE", "ALL", "DEFAULT", "BEFORE", "AFTER", "ERROR",
   "SUCCESS", "AUTHOR", "EMAIL", "VERSION", "USAGE", "HELP", "SSH_USER",
   "SSH_PASSWORD", "SSH_PUBKEY", "SSH_KNOWN_HOSTS", "SSH_PARALLEL",
   "HTTP_CERT_FILE", "HTTP_CERT_KEY"]

/-- The switch of decoder `decodeMeta` on the meta name: the value is
parsed according to the name and stored into the matching configuration
field — except for `SSH_PUBKEY` and `SSH_KNOWN_HOSTS`, whose switch
cases are empty (nothing is parsed or stored, so a following value token
then fails `decodeMeta`'s `ensureEOL`); an unrecognized name is a hard
error. -/
def decodeMetaSwitch (fuel : Nat) (lit : String) (d : DecSt) :
    Option (Except Err DecSt) :=
  match lit with
  | "WORKDIR" =>
    match parseString fuel d with
    | none => none
    | some (.error e) => some (.error e)
    | some (.ok (v, d)) => some (.ok { d with mst := { d.mst with workDir := v } })
  | "TRACE" =>
    match parseBool fuel d with
    | none => none
    | some (.error e) => some (.error e)
    | some (.ok (v, d)) => some (.ok { d with mst := { d.mst with trace := v } })
  | "ALL" =>
    match parseStringList fuel d with
    | none => none
    | some (.error e) => some (.error e)
    | some (.ok (v, d)) => some (.ok { d with mst := { d.mst with allCmds := v } })
  | "DEFAULT" =>
    match parseString fuel d with
    | none => none
    | some (.error e) => some (.error e)
    | some (.ok (v, d)) => some (.ok { d with mst := { d.mst with dfault := v } })
  | "BEFORE" =>
    match parseStringList fuel d with
    | none => none
    | some (.error e) => some (.error e)
    | some (.ok (v, d)) => some (.ok { d with mst := { d.mst with before := v } })
  | "AFTER" =>
    match parseStringList fuel d with
    | none => none
    | some (.error e) => some (.error e)
    | some (.ok (v, d)) => some (.ok { d with mst := { d.mst with after := v } })
  | "ERROR" =>
    match parseStringList fuel d with
    | none => none
    | some (.error e) => some (.error e)
    | some (.ok (v, d)) => some (.ok { d with mst := { d.mst with errCmds := v } })
  | "SUCCESS" =>
    match parseStringList fuel d with
    | none => none
    | some (.error e) => some (.error e)
    | some (.ok (v, d)) =>
        some (.ok { d with mst := { d.mst with successCmds := v } })
  | "AUTHOR" =>
    match parseString fuel d with
    | none => none
    | some (.error e) => some (.error e)
    | some (.ok (v, d)) => some (.ok { d with mst := { d.mst with author := v } })
  | "EMAIL" =>
    match parseString fuel d with
    | none => none
    | some (.error e) => some (.error e)
    | some (.ok (v, d)) => some (.ok { d with mst := { d.mst with email := v } })
  | "VERSION" =>
    match parseString fuel d with
    | none => none
    | some (.error e) => some (.error e)
    | some (.ok (v, d)) => some (.ok { d with mst := { d.mst with version := v } })
  | "USAGE" =>
    match parseString fuel d with
    | none => none
    | some (.error e) => some (.error e)
    | some (.ok (v, d)) => some (.ok { d with mst := { d.mst with usage := v } })
  | "HELP" =>
    match parseString fuel d with
    | none => none
    | some (.error e) => some (.error e)
    | some (.ok (v, d)) => some (.ok { d with mst := { d.mst with helpText := v } })
  | "SSH_USER" =>
    match parseString fuel d with
    | none => none
    | some (.error e) => some (.error e)
    | some (.ok (v, d)) => some (.ok { d with mst := { d.mst with sshUser := v } })
  | "SSH_PASSWORD" =>
    match parseString fuel d with
    | none => none
    | some (.error e) => some (.error e)
    | some (.ok (v, d)) => some (.ok { d with mst := { d.mst with sshPass := v } })
  | "SSH_PUBKEY" => some (.ok d)
  | "SSH_KNOWN_HOSTS" => some (.ok d)
  | "SSH_PARALLEL" =>
    match parseInt fuel d with
    | none => none
    | some (.error e) => some (.error e)
    | some (.ok (v, d)) =>
        some (.ok { d with mst := { d.mst with sshParallel := v } })
  | "HTTP_CERT_FILE" =>
    match parseString fuel d with
    | none => none
    | some (.error e) => some (.error e)
    | some (.ok (v, d)) => some (.ok { d with mst := { d.mst with certFile := v } })
  | "HTTP_CERT_KEY" =>
    match parseString fuel d with
    | none => none
    | some (.error e) => some (.error e)
    | some (.ok (v, d)) => some (.ok { d with mst := { d.mst with keyFile := v } })
  | _ => some (.error (.unknownMeta lit))

/-- decoder `decodeMeta`: the meta-name token must be followed by `=`;
then the switch above runs, and on success the line must end
(`ensureEOL`). -/
def decodeMeta (fuel : Nat) (d : DecSt) : Option (Except Err DecSt) :=
  let meta := d.curr
  let d := d.advance
  if d.curr.typ ≠ .assign then some (.error .unexpectedToken)
  else
    let d := d.advance
    match decodeMetaSwitch fuel meta.lit d with
    | none => none
    | some (.error e) => some (.error e)
    | some (.ok d) =>
      match ensureEOL d with
      | .error e => some (.error e)
      | .ok d => some (.ok d)

/-! ### Concrete fixtures used by the theorems -/

/-- The unterminated double-quoted string `"abc` (no closing quote
before end of input), as a rune list. -/
def untermInput : List Char := ['"', 'a', 'b', 'c']

/-- The token stream of one meta directive `.NAME = value` as the
decoder sees it (a single `String` value token), followed by the end of
the line. -/
def metaSt (name v : String) (m : Mst) : DecSt :=
  { toks := [⟨.meta, name⟩, ⟨.assign, ""⟩, ⟨.stringLit, v⟩, ⟨.eol, ""⟩], mst := m }

/-- A registry in which `build` is already bound to a `Combined` of two
definitions — the state produced by two prior `append`-policy
registrations of `build`. -/
def mstAppendTwice : Mst :=
  { commands :=
      [("build",
        .combined [.single { name := "build", aliases := [], deps := [] },
                   .single { name := "build", aliases := [], deps := [] }])],
    duplicate := "append" }

/-- A registry with a parent command `p` carrying two background
dependency edges to `b1` and `b2`, which have no dependencies of their
own; the top-level ignore-errors mode is `ign`. -/
def bgPair (p b1 b2 : String) (a1 a2 : List String) (o1 o2 : Bool) (ign : Bool) : Mst :=
  { commands :=
      [(p, .single { name := p, aliases := [],
                     deps := [⟨b1, a1, true, o1⟩, ⟨b2, a2, true, o2⟩] }),
       (b1, .single { name := b1, aliases := [], deps := [] }),
       (b2, .single { name := b2, aliases := [], deps := [] })],
    ignore := ign }

/-- A four-command registry forming a diamond: the root (named `a`)
depends on `b` and `c`, and `b` and `c` each declare a dependency on the
same name `d`. -/
def diamond (a b c d : String) (ab ac bd cd : List String)
    (bgB bgC bgD bgD2 oB oC oD oD2 : Bool) : Mst :=
  { commands :=
      [(a, .single { name := a, aliases := [],
                     deps := [⟨b, ab, bgB, oB⟩, ⟨c, ac, bgC, oC⟩] }),
       (b, .single { name := b, aliases := [], deps := [⟨d, bd, bgD, oD⟩] }),
       (c, .single { name := c, aliases := [], deps := [⟨d, cd, bgD2, oD2⟩] }),
       (d, .single { name := d, aliases := [], deps := [] })] }

/-- A registry with a single command `a` whose only dependency edge
targets the unregistered name `d`. -/
def oneDep (a d : String) (args : List String) (opt : Bool) : Mst :=
  { commands :=
      [(a, .single { name := a, aliases := [], deps := [⟨d, args, false, opt⟩] })] }

/-! ## Theorems -/

lemma subst_empty_name (s : String) : (if s = "" then "" else s) = s := by
  by_cases h : s = "" <;> simp [h]


/-! ### C2 — duplicate-name policies in `Register` -/

/-- C2: the claim fails on the code.  Under the `append` policy, when the
existing entry is already a `Combined`, `Register` runs
`curr = append(mul, cmd); break` — the extended slice is assigned to the
dead local `curr` and never stored back into `m.Commands` — then returns
`nil`.  Registering a third `build` therefore reports success while
leaving the registry byte-for-byte unchanged: the new definition is
dropped instead of being combined, contradicting both the claim and the
evident intent of the branch (an assignment with no effect).  The
first-collision case (`Single` + `Single` → stored `Combined` of both, in
declaration order) does behave as claimed, as the second conjunct
shows. -/
theorem register_append_drops_third :
    Register mstAppendTwice { name := "build", aliases := [], deps := [] }
      = .ok mstAppendTwice
    ∧ Register { commands := [("build", .single { name := "build", aliases := [], deps := [] })],
                 duplicate := "append" }
        { name := "build", aliases := [], deps := [] }
      = .ok { commands :=
                [("build",
                  .combined [.single { name := "build", aliases := [], deps := [] },
                             .single { name := "build", aliases := [], deps := [] }])],
              duplicate := "append" } :=
  ⟨rfl, rfl⟩

/-! ### C4 — background dependency groups -/

/-- C4, counterexample to the original claim: two non-optional background
dependencies, `b1` failing and `b2` succeeding.  `executeDependencies`
joins both tasks but returns no error: `b1`'s failure is *not* reported
as the dependency group's error, because the background task runs
`m.executeCommand(ctx, cmd, d.Args, stdout, stderr)` without using its
return value and then returns `nil`. -/
theorem executeDeps_bg_failure_swallowed :
    executeDependencies (bgPair "p" "b1" "b2" [] [] false false false)
        (fun nm _ => if nm = "b1" then some (.execFailed "b1") else none) 6
        (.single { name := "p", aliases := [],
                   deps := [⟨"b1", [], true, false⟩, ⟨"b2", [], true, false⟩] })
      = some ([("b1", []), ("b2", [])], none) := by
  simp [executeDependencies, execDepsLoop, resolveFlat, resolveFlat.go, bgPair,
    prepare, lookup, mapFind, aliasScan, executeCommandModel, Command.commandName,
    depsOf]

/-- C4, amended: all background dependency tasks launched for a command
are awaited together before the engine proceeds past the dependency
phase — both background commands' executions appear in the joined log —
but a background dependency's own command-execution failure is *not*
reported: the dependency group's result carries no error for every
execution oracle and every ignore-mode setting (the background task
discards `executeCommand`'s return value and returns `nil`; only a
mandatory preparation failure or a failure inside a background task's
own sub-dependency resolution is propagated). -/
theorem executeDeps_bg_awaited_failure_not_reported (p b1 b2 : String)
    (h1p : b1 ≠ p) (h2p : b2 ≠ p) (h21 : b2 ≠ b1)
    (a1 a2 : List String) (o1 o2 : Bool) (ign : Bool)
    (oracle : String → List String → Option Err) (n : Nat) :
    executeDependencies (bgPair p b1 b2 a1 a2 o1 o2 ign) oracle (n + 5)
        (.single { name := p, aliases := [],
                   deps := [⟨b1, a1, true, o1⟩, ⟨b2, a2, true, o2⟩] })
      = some ([(b1, a1), (b2, a2)], none) := by
  simp [executeDependencies, execDepsLoop, resolveFlat, resolveFlat.go, bgPair,
    prepare, lookup, mapFind, aliasScan, executeCommandModel, Command.commandName,
    depsOf, subst_empty_name, h1p, h2p, h21,
    Ne.symm h1p, Ne.symm h2p, Ne.symm h21]

/-- Witness for C4's amended claim at a concrete input (an oracle failing
`b2`, ignore-errors off). -/
theorem executeDeps_bg_awaited_witness :
    executeDependencies (bgPair "job" "t1" "t2" ["x"] [] false true false)
        (fun nm _ => if nm = "t2" then some (.execFailed "t2") else none) 5
        (.single { name := "job", aliases := [],
                   deps := [⟨"t1", ["x"], true, false⟩, ⟨"t2", [], true, true⟩] })
      = some ([("t1", ["x"]), ("t2", [])], none) := by
  exact executeDeps_bg_awaited_failure_not_reported "job" "t1" "t2" (by decide)
    (by decide) (by decide) ["x"] [] false true false
    (fun nm _ => if nm = "t2" then some (.execFailed "t2") else none) 0

/-! ### C5 — help-flag detection -/

/-- C5: the claim fails on the code.  `hasHelp` sorts the arguments and
runs a *single* `sort.Search` whose predicate is
`"-h" <= as[i] || "-help" <= as[i] || "--help" <= as[i]` — equivalent to
`as[i] >= "--help"`, the least of the three flags — and then tests only
the one element found.  Any non-flag argument sorting between `"--help"`
and the flag actually present masks it: with arguments
`["-a", "-h"]` the sorted array is `["-a", "-h"]`, the search lands on
`"-a"` (since `"--help" < "-a"`), and `hasHelp` answers `false` even
though `-h` is present, so `execute` proceeds with normal execution
instead of printing help.  The second and third conjuncts show the flag
is genuinely present and that the same flag alone is detected. -/
theorem hasHelp_misses_flag :
    hasHelp ["-a", "-h"] = false
    ∧ (["-a", "-h"] : List String).contains "-h" = true
    ∧ hasHelp ["-h"] = true := by
  decide

/-! ### C1 — diamond dependency deduplication -/

/-- C1, confirmed: resolving the diamond's root with
`resolveDependenciesBis` (whose visited-name set is created once and
shared by the whole pass) produces a tree in which `d` appears exactly
once — under `b`, the first path in depth-first declaration order (the
second conjunct exhibits the full tree: `d`'s node sits below `b`'s and
`c`'s subtree is empty) — and in which each of `b`, `c`, `d` is executed
exactly once by the resolved tree's run (`countName` counts via the
spec-modelled one-execution-per-node run order). -/
theorem resolveBis_diamond (a b c d : String)
    (hba : b ≠ a) (hca : c ≠ a) (hcb : c ≠ b)
    (hda : d ≠ a) (hdb : d ≠ b) (hdc : d ≠ c)
    (ab ac bd cd : List String) (bgB bgC bgD bgD2 oB oC oD oD2 : Bool) (n : Nat) :
    resolveDependenciesBis (diamond a b c d ab ac bd cd bgB bgC bgD bgD2 oB oC oD oD2)
        (.single { name := a, aliases := [],
                   deps := [⟨b, ab, bgB, oB⟩, ⟨c, ac, bgC, oC⟩] }) (n + 3)
      = some (.ok
          [Exec.dep (.single { name := b, aliases := [], deps := [⟨d, bd, bgD, oD⟩] })
              ab bgB
              [Exec.dep (.single { name := d, aliases := [], deps := [] }) bd bgD []],
           Exec.dep (.single { name := c, aliases := [], deps := [⟨d, cd, bgD2, oD2⟩] })
              ac bgC []])
    ∧ countName d
        [Exec.dep (.single { name := b, aliases := [], deps := [⟨d, bd, bgD, oD⟩] })
            ab bgB
            [Exec.dep (.single { name := d, aliases := [], deps := [] }) bd bgD []],
         Exec.dep (.single { name := c, aliases := [], deps := [⟨d, cd, bgD2, oD2⟩] })
            ac bgC []] = 1
    ∧ countName b
        [Exec.dep (.single { name := b, aliases := [], deps := [⟨d, bd, bgD, oD⟩] })
            ab bgB
            [Exec.dep (.single { name := d, aliases := [], deps := [] }) bd bgD []],
         Exec.dep (.single { name := c, aliases := [], deps := [⟨d, cd, bgD2, oD2⟩] })
            ac bgC []] = 1
    ∧ countName c
        [Exec.dep (.single { name := b, aliases := [], deps := [⟨d, bd, bgD, oD⟩] })
            ab bgB
            [Exec.dep (.single { name := d, aliases := [], deps := [] }) bd bgD []],
         Exec.dep (.single { name := c, aliases := [], deps := [⟨d, cd, bgD2, oD2⟩] })
            ac bgC []] = 1 := by
  refine ⟨?_, ?_, ?_, ?_⟩
  · simp [resolveDependenciesBis, traverseDeps, depsOf, prepare, lookup, mapFind,
      aliasScan, diamond, subst_empty_name, hba, hca, hcb, hda, hdb, hdc,
      Ne.symm hba, Ne.symm hca, Ne.symm hcb, Ne.symm hda, Ne.symm hdb, Ne.symm hdc]
  · simp [countName, runNames, runNames1, Command.commandName, List.count_cons,
      hdb, hdc]
  · simp [countName, runNames, runNames1, Command.commandName, List.count_cons,
      Ne.symm hdb, hcb]
  · simp [countName, runNames, runNames1, Command.commandName, List.count_cons,
      Ne.symm hdc, Ne.symm hcb]

/-- Witness for C1 at concrete names, arguments and flags. -/
theorem resolveBis_diamond_witness :
    resolveDependenciesBis (diamond "a" "b" "c" "d" ["x"] [] ["1"] ["2"]
        false true false false false false false false)
        (.single { name := "a", aliases := [],
                   deps := [⟨"b", ["x"], false, false⟩, ⟨"c", [], true, false⟩] }) 3
      = some (.ok
          [Exec.dep (.single { name := "b", aliases := [],
                               deps := [⟨"d", ["1"], false, false⟩] })
              ["x"] false
              [Exec.dep (.single { name := "d", aliases := [], deps := [] })
                ["1"] false []],
           Exec.dep (.single { name := "c", aliases := [],
                               deps := [⟨"d", ["2"], false, false⟩] })
              [] true []])
    ∧ countName "d"
        [Exec.dep (.single { name := "b", aliases := [],
                             deps := [⟨"d", ["1"], false, false⟩] })
            ["x"] false
            [Exec.dep (.single { name := "d", aliases := [], deps := [] })
              ["1"] false []],
         Exec.dep (.single { name := "c", aliases := [],
                             deps := [⟨"d", ["2"], false, false⟩] })
            [] true []] = 1
    ∧ countName "b"
        [Exec.dep (.single { name := "b", aliases := [],
                             deps := [⟨"d", ["1"], false, false⟩] })
            ["x"] false
            [Exec.dep (.single { name := "d", aliases := [], deps := [] })
              ["1"] false []],
         Exec.dep (.single { name := "c", aliases := [],
                             deps := [⟨"d", ["2"], false, false⟩] })
            [] true []] = 1
    ∧ countName "c"
        [Exec.dep (.single { name := "b", aliases := [],
                             deps := [⟨"d", ["1"], false, false⟩] })
            ["x"] false
            [Exec.dep (.single { name := "d", aliases := [], deps := [] })
              ["1"] false []],
         Exec.dep (.single { name := "c", aliases := [],
                             deps := [⟨"d", ["2"], false, false⟩] })
            [] true []] = 1 := by
  exact resolveBis_diamond "a" "b" "c" "d" (by decide) (by decide) (by decide)
    (by decide) (by decide) (by decide) ["x"] [] ["1"] ["2"]
    false true false false false false false false 0

/-! ### C3 — optional versus mandatory missing dependency -/

/-- C3, confirmed: with the edge marked optional, resolution silently
drops it and succeeds with an empty dependency forest; with a mandatory
edge, `resolveDependenciesBis` fails with the (suggestion-decorated)
lookup error for the missing name, and `resolve` — the only producer of
the execution tree — propagates that error, producing no tree. -/
theorem resolveBis_optional_missing (a d : String) (hda : d ≠ a)
    (args vargs : List String) (n : Nat) :
    resolveDependenciesBis (oneDep a d args true)
        (.single { name := a, aliases := [], deps := [⟨d, args, false, true⟩] })
        (n + 1)
      = some (.ok [])
    ∧ resolveDependenciesBis (oneDep a d args false)
        (.single { name := a, aliases := [], deps := [⟨d, args, false, false⟩] })
        (n + 1)
      = some (.error (.suggested d (.notDefined d)))
    ∧ resolve (oneDep a d args false)
        (.single { name := a, aliases := [], deps := [⟨d, args, false, false⟩] })
        vargs (n + 1)
      = some (.error (.suggested d (.notDefined d))) := by
  have hlk : prepare (oneDep a d args true) d = .error (.suggested d (.notDefined d)) := by
    simp [prepare, lookup, mapFind, aliasScan, oneDep, subst_empty_name,
      Ne.symm hda, searchStrings, goSearch, goSearchLoop]
  have hlk2 : prepare (oneDep a d args false) d
      = .error (.suggested d (.notDefined d)) := by
    simp [prepare, lookup, mapFind, aliasScan, oneDep, subst_empty_name,
      Ne.symm hda, searchStrings, goSearch, goSearchLoop]
  refine ⟨?_, ?_, ?_⟩
  · simp [resolveDependenciesBis, traverseDeps, depsOf, hlk]
  · simp [resolveDependenciesBis, traverseDeps, depsOf, hlk2]
  · simp [resolve, resolveDependenciesBis, traverseDeps, depsOf, hlk2,
      show (oneDep a d args false).noDeps = false from rfl]

/-- Witness for C3 at concrete names. -/
theorem resolveBis_optional_missing_witness :
    resolveDependenciesBis (oneDep "a" "d" ["v"] true)
        (.single { name := "a", aliases := [],
                   deps := [⟨"d", ["v"], false, true⟩] }) 1
      = some (.ok [])
    ∧ resolveDependenciesBis (oneDep "a" "d" ["v"] false)
        (.single { name := "a", aliases := [],
                   deps := [⟨"d", ["v"], false, false⟩] }) 1
      = some (.error (.suggested "d" (.notDefined "d")))
    ∧ resolve (oneDep "a" "d" ["v"] false)
        (.single { name := "a", aliases := [],
                   deps := [⟨"d", ["v"], false, false⟩] }) [] 1
      = some (.error (.suggested "d" (.notDefined "d"))) := by
  exact resolveBis_optional_missing "a" "d" (by decide) ["v"] [] 0

/-! ### C6 — remote target deduplication and the admission limiter -/

lemma remoteLoop_eq_dedup (l : List String) :
    ∀ seen, remoteLoop l seen
      = (dedupFirstSeen.go l seen).flatMap
          fun h => [RemoteEvent.acquire 1, RemoteEvent.launch h] := by
  induction l with
  | nil => intro seen; rfl
  | cons h rest ih =>
    intro seen
    by_cases hs : h ∈ seen
    · simp [remoteLoop, dedupFirstSeen.go, hs, ih]
    · simp [remoteLoop, dedupFirstSeen.go, hs, ih]

lemma launches_pairs (hs : List String) :
    launches (hs.flatMap fun h => [RemoteEvent.acquire 1, RemoteEvent.launch h])
      = hs := by
  induction hs with
  | nil => rfl
  | cons h rest ih => simp [launches, List.filterMap_append] at ih ⊢; exact ih

lemma dedup_go_mem (l : List String) :
    ∀ seen x, x ∈ dedupFirstSeen.go l seen ↔ x ∈ l ∧ x ∉ seen := by
  induction l with
  | nil => intro seen x; simp [dedupFirstSeen.go]
  | cons h rest ih =>
    intro seen x
    by_cases hs : h ∈ seen
    · have hgo : dedupFirstSeen.go (h :: rest) seen = dedupFirstSeen.go rest seen := by
        simp [dedupFirstSeen.go, hs]
      rw [hgo, ih seen x]
      simp only [List.mem_cons]
      constructor
      · rintro ⟨hx, hns⟩; exact ⟨Or.inr hx, hns⟩
      · rintro ⟨hx | hx, hns⟩
        · subst hx; exact absurd hs hns
        · exact ⟨hx, hns⟩
    · have hgo : dedupFirstSeen.go (h :: rest) seen
          = h :: dedupFirstSeen.go rest (h :: seen) := by
        simp [dedupFirstSeen.go, hs]
      rw [hgo]
      simp only [List.mem_cons, ih (h :: seen) x]
      constructor
      · rintro (rfl | ⟨hx, hns⟩)
        · exact ⟨Or.inl rfl, hs⟩
        · exact ⟨Or.inr hx, fun hc => hns (Or.inr hc)⟩
      · rintro ⟨hx | hx, hns⟩
        · exact Or.inl hx
        · by_cases hxh : x = h
          · exact Or.inl hxh
          · refine Or.inr ⟨hx, ?_⟩
            push_neg
            exact ⟨hxh, hns⟩

lemma dedup_go_nodup (l : List String) :
    ∀ seen, (dedupFirstSeen.go l seen).Nodup := by
  induction l with
  | nil => intro seen; simp [dedupFirstSeen.go]
  | cons h rest ih =>
    intro seen
    by_cases hs : h ∈ seen
    · have hgo : dedupFirstSeen.go (h :: rest) seen = dedupFirstSeen.go rest seen := by
        simp [dedupFirstSeen.go, hs]
      rw [hgo]; exact ih seen
    · have hgo : dedupFirstSeen.go (h :: rest) seen
          = h :: dedupFirstSeen.go rest (h :: seen) := by
        simp [dedupFirstSeen.go, hs]
      rw [hgo, List.nodup_cons]
      refine ⟨fun hc => ?_, ih (h :: seen)⟩
      have := (dedup_go_mem rest (h :: seen) h).1 hc
      simp at this

/-- C6, amended: `executeRemote` launches exactly one task per distinct
target host, in first-seen order (the launched-host sequence equals the
deduplicated target list, has no duplicates, and covers exactly the
targets), each launch is immediately preceded by a one-unit acquisition
of the weighted limiter and the trace ends with the
`Acquire(capacity)` barrier; the limiter's capacity is the configured
SSH parallelism when positive, and otherwise defaults to the length of
the *full* target list — duplicates included — not to the number of
distinct targets as the original claim states. -/
theorem executeRemote_dedups_and_caps (m : Mst) (targets : List String) :
    launches (executeRemote m targets).2 = dedupFirstSeen targets
    ∧ (launches (executeRemote m targets).2).Nodup
    ∧ (∀ h, h ∈ launches (executeRemote m targets).2 ↔ h ∈ targets)
    ∧ (executeRemote m targets).2
        = ((dedupFirstSeen targets).flatMap
            fun h => [RemoteEvent.acquire 1, RemoteEvent.launch h])
          ++ [RemoteEvent.acquire (executeRemote m targets).1]
    ∧ (executeRemote m targets).1
        = (if m.sshParallel ≤ 0 then (targets.length : Int) else m.sshParallel) := by
  have h2 : (executeRemote m targets).2
      = ((dedupFirstSeen targets).flatMap
          fun h => [RemoteEvent.acquire 1, RemoteEvent.launch h])
        ++ [RemoteEvent.acquire (executeRemote m targets).1] := by
    simp [executeRemote, remoteLoop_eq_dedup, dedupFirstSeen]
  have hl : launches (executeRemote m targets).2 = dedupFirstSeen targets := by
    rw [h2]
    simp [launches, List.filterMap_append]
    have := launches_pairs (dedupFirstSeen targets)
    simpa [launches] using this
  refine ⟨hl, ?_, ?_, h2, rfl⟩
  · rw [hl]; exact dedup_go_nodup targets []
  · intro h
    rw [hl]
    unfold dedupFirstSeen
    rw [dedup_go_mem targets [] h]
    simp

/-- C6, counterexample to the original claim: with two identical targets
and no configured parallelism, the limiter's capacity is set to 2 (the
full target-list length) although there is only 1 distinct target. -/
theorem executeRemote_capacity_counts_duplicates :
    (executeRemote { sshParallel := 0 } ["a", "a"]).1 = 2
    ∧ (dedupFirstSeen ["a", "a"]).length = 1 := by
  decide

/-! ### C7 — lexer totality on unterminated constructs -/

lemma untermStuck : ∀ (fuel : Nat) (b : List Char),
    readStringLoop false quoteR fuel
      ⟨untermInput, 0, -1, 4, 4, 1, 5⟩ b = none := by
  intro fuel
  induction fuel with
  | zero => intro b; rfl
  | succ n ih => intro b; exact ih _

lemma untermLoop3 (fuel : Nat) (b : List Char) :
    readStringLoop false quoteR fuel ⟨untermInput, 0, 99, 3, 4, 1, 4⟩ b = none := by
  cases fuel with
  | zero => rfl
  | succ n => exact untermStuck n _

lemma untermLoop2 (fuel : Nat) (b : List Char) :
    readStringLoop false quoteR fuel ⟨untermInput, 0, 98, 2, 3, 1, 3⟩ b = none := by
  cases fuel with
  | zero => rfl
  | succ n => exact untermLoop3 n _

lemma untermLoop1 (fuel : Nat) (b : List Char) :
    readStringLoop false quoteR fuel ⟨untermInput, 0, 97, 1, 2, 1, 2⟩ b = none := by
  cases fuel with
  | zero => rfl
  | succ n => exact untermLoop2 n _

lemma untermReadString (fuel : Nat) :
    readString fuel ⟨untermInput, 0, 34, 0, 1, 1, 1⟩ = none := by
  show (match readStringLoop false quoteR fuel ⟨untermInput, 0, 97, 1, 2, 1, 2⟩ [] with
        | none => none
        | some (x, b) =>
            some (x, ({ literal := String.mk b, typ := valueT } : Tok))) = none
  rw [untermLoop1 fuel []]

lemma untermNextDefault (fuel : Nat) :
    nextDefault fuel ⟨untermInput, 0, 34, 0, 1, 1, 1⟩ = none := by
  cases fuel with
  | zero => rfl
  | succ n => exact untermReadString (n + 1)

lemma untermLexNext (fuel : Nat) :
    lexNext fuel (lexInit untermInput) = none := by
  cases fuel with
  | zero => rfl
  | succ n =>
    show (match nextDefault n ⟨untermInput, 0, 34, 0, 1, 1, 1⟩ with
          | none => none
          | some (x, t) =>
              let p := updateState x t
              if p.2 then lexNext n p.1 else some (t, p.1.readRune)) = none
    rw [untermNextDefault n]

/-- C7: the claim fails on the code.  On the input `"abc` — a
double-quoted string with no closing delimiter before end of input — the
lexer's `Next` never returns: `readString`'s loop runs while
`x.char != eos`, but once end of input turns `x.char` into the `eof`
marker, `readRune` is a no-op (its guard returns immediately when
`x.pos > 0` and the current rune is a marker), so the loop repeats on an
unchanged lexer state forever instead of producing an "invalid" token.
For every fuel bound the fueled embedding returns nothing (first
conjunct), while a well-terminated string lexes to a value token
(second conjunct), so the non-result is divergence, not a modelling
artifact. -/
theorem lexNext_diverges_on_unterminated_string :
    (¬ ∃ (fuel : Nat) (r : Tok × Lexer),
        lexNext fuel (lexInit untermInput) = some r)
    ∧ (lexNext 50 (lexInit ['"', 'a', 'b', 'c', '"', ' '])).map Prod.fst
        = some { literal := "abc", typ := valueT } := by
  constructor
  · rintro ⟨fuel, r, h⟩
    rw [untermLexNext fuel] at h
    cases h
  · rfl

/-! ### C8 — meta-directive routing -/

lemma joinSingleton (s : String) : String.join [s] = s := by
  simp [String.join]

/-- C8, amended: of the twenty recognized meta names, eighteen store the
parsed value into their configuration field as the claim states
(plain-string names store the value, list-valued names store the value
list, `TRACE` the parsed boolean, `SSH_PARALLEL` the parsed integer); but
`SSH_PUBKEY` and `SSH_KNOWN_HOSTS`, while recognized, have empty switch
cases — nothing is parsed or stored (there is not even a parsed-key
configuration field), and with a value present the directive then fails
`ensureEOL` with an unexpected-token error; any unrecognized name is an
unknown-meta error, as claimed. -/
theorem decodeMeta_routes_names (m : Mst) (v : String) (n : Nat) :
    decodeMeta (n + 3) (metaSt "WORKDIR" v m)
        = some (.ok { toks := [], mst := { m with workDir := v } })
    ∧ decodeMeta (n + 3) (metaSt "DEFAULT" v m)
        = some (.ok { toks := [], mst := { m with dfault := v } })
    ∧ decodeMeta (n + 3) (metaSt "AUTHOR" v m)
        = some (.ok { toks := [], mst := { m with author := v } })
    ∧ decodeMeta (n + 3) (metaSt "EMAIL" v m)
        = some (.ok { toks := [], mst := { m with email := v } })
    ∧ decodeMeta (n + 3) (metaSt "VERSION" v m)
        = some (.ok { toks := [], mst := { m with version := v } })
    ∧ decodeMeta (n + 3) (metaSt "USAGE" v m)
        = some (.ok { toks := [], mst := { m with usage := v } })
    ∧ decodeMeta (n + 3) (metaSt "HELP" v m)
        = some (.ok { toks := [], mst := { m with helpText := v } })
    ∧ decodeMeta (n + 3) (metaSt "SSH_USER" v m)
        = some (.ok { toks := [], mst := { m with sshUser := v } })
    ∧ decodeMeta (n + 3) (metaSt "SSH_PASSWORD" v m)
        = some (.ok { toks := [], mst := { m with sshPass := v } })
    ∧ decodeMeta (n + 3) (metaSt "HTTP_CERT_FILE" v m)
        = some (.ok { toks := [], mst := { m with certFile := v } })
    ∧ decodeMeta (n + 3) (metaSt "HTTP_CERT_KEY" v m)
        = some (.ok { toks := [], mst := { m with keyFile := v } })
    ∧ decodeMeta (n + 3) (metaSt "ALL" v m)
        = some (.ok { toks := [], mst := { m with allCmds := [v] } })
    ∧ decodeMeta (n + 3) (metaSt "BEFORE" v m)
        = some (.ok { toks := [], mst := { m with before := [v] } })
    ∧ decodeMeta (n + 3) (metaSt "AFTER" v m)
        = some (.ok { toks := [], mst := { m with after := [v] } })
    ∧ decodeMeta (n + 3) (metaSt "ERROR" v m)
        = some (.ok { toks := [], mst := { m with errCmds := [v] } })
    ∧ decodeMeta (n + 3) (metaSt "SUCCESS" v m)
        = some (.ok { toks := [], mst := { m with successCmds := [v] } })
    ∧ (∀ vb bv, goParseBool vb = .ok bv →
        decodeMeta (n + 3) (metaSt "TRACE" vb m)
          = some (.ok { toks := [], mst := { m with trace := bv } }))
    ∧ (∀ vi iv, goParseInt vi = .ok iv →
        decodeMeta (n + 3) (metaSt "SSH_PARALLEL" vi m)
          = some (.ok { toks := [], mst := { m with sshParallel := iv } }))
    ∧ decodeMeta (n + 3) (metaSt "SSH_PUBKEY" v m) = some (.error .unexpectedToken)
    ∧ decodeMeta (n + 3) (metaSt "SSH_KNOWN_HOSTS" v m) = some (.error .unexpectedToken)
    ∧ (∀ nm, nm ∉ metaNames →
        decodeMeta (n + 3) (metaSt nm v m) = some (.error (.unknownMeta nm))) := by
  refine ⟨?_, ?_, ?_, ?_, ?_, ?_, ?_, ?_, ?_, ?_, ?_, ?_, ?_, ?_, ?_, ?_, ?_, ?_, ?_, ?_, ?_⟩
  · simp [decodeMeta, decodeMetaSwitch, parseString, parseStringList,
      parseStringListLoop, parseBool, parseInt, decodeValue, decodeValueLoop,
      appendValues, ensureEOL,
      DecSt.curr, DecSt.advance, DecSt.isDone, Tok2.isValue, Tok2.isVariable,
      Tok2.isBlank, metaSt, joinSingleton]
  · simp [decodeMeta, decodeMetaSwitch, parseString, parseStringList,
      parseStringListLoop, parseBool, parseInt, decodeValue, decodeValueLoop,
      appendValues, ensureEOL,
      DecSt.curr, DecSt.advance, DecSt.isDone, Tok2.isValue, Tok2.isVariable,
      Tok2.isBlank, metaSt, joinSingleton]
  · simp [decodeMeta, decodeMetaSwitch, parseString, parseStringList,
      parseStringListLoop, parseBool, parseInt, decodeValue, decodeValueLoop,
      appendValues, ensureEOL,
      DecSt.curr, DecSt.advance, DecSt.isDone, Tok2.isValue, Tok2.isVariable,
      Tok2.isBlank, metaSt, joinSingleton]
  · simp [decodeMeta, decodeMetaSwitch, parseString, parseStringList,
      parseStringListLoop, parseBool, parseInt, decodeValue, decodeValueLoop,
      appendValues, ensureEOL,
      DecSt.curr, DecSt.advance, DecSt.isDone, Tok2.isValue, Tok2.isVariable,
      Tok2.isBlank, metaSt, joinSingleton]
  · simp [decodeMeta, decodeMetaSwitch, parseString, parseStringList,
      parseStringListLoop, parseBool, parseInt, decodeValue, decodeValueLoop,
      appendValues, ensureEOL,
      DecSt.curr, DecSt.advance, DecSt.isDone, Tok2.isValue, Tok2.isVariable,
      Tok2.isBlank, metaSt, joinSingleton]
  · simp [decodeMeta, decodeMetaSwitch, parseString, parseStringList,
      parseStringListLoop, parseBool, parseInt, decodeValue, decodeValueLoop,
      appendValues, ensureEOL,
      DecSt.curr, DecSt.advance, DecSt.isDone, Tok2.isValue, Tok2.isVariable,
      Tok2.isBlank, metaSt, joinSingleton]
  · simp [decodeMeta, decodeMetaSwitch, parseString, parseStringList,
      parseStringListLoop, parseBool, parseInt, decodeValue, decodeValueLoop,
      appendValues, ensureEOL,
      DecSt.curr, DecSt.advance, DecSt.isDone, Tok2.isValue, Tok2.isVariable,
      Tok2.isBlank, metaSt, joinSingleton]
  · simp [decodeMeta, decodeMetaSwitch, parseString, parseStringList,
      parseStringListLoop, parseBool, parseInt, decodeValue, decodeValueLoop,
      appendValues, ensureEOL,
      DecSt.curr, DecSt.advance, DecSt.isDone, Tok2.isValue, Tok2.isVariable,
      Tok2.isBlank, metaSt, joinSingleton]
  · simp [decodeMeta, decodeMetaSwitch, parseString, parseStringList,
      parseStringListLoop, parseBool, parseInt, decodeValue, decodeValueLoop,
      appendValues, ensureEOL,
      DecSt.curr, DecSt.advance, DecSt.isDone, Tok2.isValue, Tok2.isVariable,
      Tok2.isBlank, metaSt, joinSingleton]
  · simp [decodeMeta, decodeMetaSwitch, parseString, parseStringList,
      parseStringListLoop, parseBool, parseInt, decodeValue, decodeValueLoop,
      appendValues, ensureEOL,
      DecSt.curr, DecSt.advance, DecSt.isDone, Tok2.isValue, Tok2.isVariable,
      Tok2.isBlank, metaSt, joinSingleton]
  · simp [decodeMeta, decodeMetaSwitch, parseString, parseStringList,
      parseStringListLoop, parseBool, parseInt, decodeValue, decodeValueLoop,
      appendValues, ensureEOL,
      DecSt.curr, DecSt.advance, DecSt.isDone, Tok2.isValue, Tok2.isVariable,
      Tok2.isBlank, metaSt, joinSingleton]
  · simp [decodeMeta, decodeMetaSwitch, parseString, parseStringList,
      parseStringListLoop, parseBool, parseInt, decodeValue, decodeValueLoop,
      appendValues, ensureEOL,
      DecSt.curr, DecSt.advance, DecSt.isDone, Tok2.isValue, Tok2.isVariable,
      Tok2.isBlank, metaSt, joinSingleton]
  · simp [decodeMeta, decodeMetaSwitch, parseString, parseStringList,
      parseStringListLoop, parseBool, parseInt, decodeValue, decodeValueLoop,
      appendValues, ensureEOL,
      DecSt.curr, DecSt.advance, DecSt.isDone, Tok2.isValue, Tok2.isVariable,
      Tok2.isBlank, metaSt, joinSingleton]
  · simp [decodeMeta, decodeMetaSwitch, parseString, parseStringList,
      parseStringListLoop, parseBool, parseInt, decodeValue, decodeValueLoop,
      appendValues, ensureEOL,
      DecSt.curr, DecSt.advance, DecSt.isDone, Tok2.isValue, Tok2.isVariable,
      Tok2.isBlank, metaSt, joinSingleton]
  · simp [decodeMeta, decodeMetaSwitch, parseString, parseStringList,
      parseStringListLoop, parseBool, parseInt, decodeValue, decodeValueLoop,
      appendValues, ensureEOL,
      DecSt.curr, DecSt.advance, DecSt.isDone, Tok2.isValue, Tok2.isVariable,
      Tok2.isBlank, metaSt, joinSingleton]
  · simp [decodeMeta, decodeMetaSwitch, parseString, parseStringList,
      parseStringListLoop, parseBool, parseInt, decodeValue, decodeValueLoop,
      appendValues, ensureEOL,
      DecSt.curr, DecSt.advance, DecSt.isDone, Tok2.isValue, Tok2.isVariable,
      Tok2.isBlank, metaSt, joinSingleton]
  · intro vb bv hv
    have hne : ¬vb = "" := by
      intro h
      subst h
      simp [goParseBool] at hv
    simp [decodeMeta, decodeMetaSwitch, parseString, parseStringList,
      parseStringListLoop, parseBool, parseInt, decodeValue, decodeValueLoop,
      appendValues, ensureEOL,
      DecSt.curr, DecSt.advance, DecSt.isDone, Tok2.isValue, Tok2.isVariable,
      Tok2.isBlank, metaSt, joinSingleton, hv, hne]
  · intro vi iv hv
    have hne : ¬vi = "" := by
      intro h
      subst h
      simp [goParseInt] at hv
    simp [decodeMeta, decodeMetaSwitch, parseString, parseStringList,
      parseStringListLoop, parseBool, parseInt, decodeValue, decodeValueLoop,
      appendValues, ensureEOL,
      DecSt.curr, DecSt.advance, DecSt.isDone, Tok2.isValue, Tok2.isVariable,
      Tok2.isBlank, metaSt, joinSingleton, hv, hne]
  · simp [decodeMeta, decodeMetaSwitch, parseString, parseStringList,
      parseStringListLoop, parseBool, parseInt, decodeValue, decodeValueLoop,
      appendValues, ensureEOL,
      DecSt.curr, DecSt.advance, DecSt.isDone, Tok2.isValue, Tok2.isVariable,
      Tok2.isBlank, metaSt, joinSingleton]
  · simp [decodeMeta, decodeMetaSwitch, parseString, parseStringList,
      parseStringListLoop, parseBool, parseInt, decodeValue, decodeValueLoop,
      appendValues, ensureEOL,
      DecSt.curr, DecSt.advance, DecSt.isDone, Tok2.isValue, Tok2.isVariable,
      Tok2.isBlank, metaSt, joinSingleton]
  · intro nm hnm
    have hsw : ∀ d, decodeMetaSwitch (n + 3) nm d = some (.error (.unknownMeta nm)) := by
      intro d
      unfold decodeMetaSwitch
      split
      all_goals first
        | rfl
        | (exfalso; simp [metaNames] at hnm)
    simp [decodeMeta, DecSt.curr, DecSt.advance, metaSt, hsw]

/-- C8, counterexample to the original claim: `.SSH_PUBKEY = key` and
`.SSH_KNOWN_HOSTS = hosts` do not store the value into any configuration
field — the switch cases are empty and decoding then fails at the
end-of-line check with the value token still unconsumed. -/
theorem decodeMeta_pubkey_not_stored :
    decodeMeta 5 (metaSt "SSH_PUBKEY" "key" {}) = some (.error .unexpectedToken)
    ∧ decodeMeta 5 (metaSt "SSH_KNOWN_HOSTS" "hosts" {})
        = some (.error .unexpectedToken) :=
  ⟨rfl, rfl⟩

/-- Witness for C8 at concrete inputs: a stored string, a stored boolean,
a stored integer, a recognized-but-ignored name and an unknown name. -/
theorem decodeMeta_routes_names_witness :
    decodeMeta 3 (metaSt "WORKDIR" "/tmp" {}) = some (.ok { toks := [], mst := { workDir := "/tmp" } })
    ∧ decodeMeta 3 (metaSt "TRACE" "true" {}) = some (.ok { toks := [], mst := { trace := true } })
    ∧ decodeMeta 3 (metaSt "SSH_PARALLEL" "4" {}) = some (.ok { toks := [], mst := { sshParallel := 4 } })
    ∧ decodeMeta 3 (metaSt "SSH_PUBKEY" "k" {}) = some (.error .unexpectedToken)
    ∧ decodeMeta 3 (metaSt "FOO" "v" {}) = some (.error (.unknownMeta "FOO")) := by
  have h := decodeMeta_routes_names {} "v" 0
  have hw := decodeMeta_routes_names {} "/tmp" 0
  have hk := decodeMeta_routes_names {} "k" 0
  refine ⟨hw.1, ?_, ?_, ?_, ?_⟩
  · exact (h.2.2.2.2.2.2.2.2.2.2.2.2.2.2.2.2.1) "true" true rfl
  · exact (h.2.2.2.2.2.2.2.2.2.2.2.2.2.2.2.2.2.1) "4" 4 rfl
  · exact hk.2.2.2.2.2.2.2.2.2.2.2.2.2.2.2.2.2.2.1
  · exact (h.2.2.2.2.2.2.2.2.2.2.2.2.2.2.2.2.2.2.2.2) "FOO" (by decide)

/-! ### C9 — cancellation checks between remote sessions -/

lemma executeHostLoop_cancelled (host : String)
    (cancelled sessOpen runOk : Nat → Bool) (k : Nat)
    (hk : cancelled k = true)
    (hpre : ∀ i, i < k → cancelled i = false ∧ sessOpen i = true ∧ runOk i = true) :
    ∀ (scripts : List String) (i : Nat), i ≤ k → k - i < scripts.length →
      executeHostLoop host cancelled sessOpen runOk i scripts
        = (List.range' i (k - i), List.range' i (k - i), some .cancelled) := by
  intro scripts
  induction scripts with
  | nil => intro i _ hlt; simp at hlt
  | cons s rest ih =>
    intro i hle hlt
    rcases Nat.lt_or_ge i k with hik | hik
    · obtain ⟨hc, ho, hr⟩ := hpre i hik
      have hrec := ih (i + 1) hik (by simp at hlt; omega)
      have hn : k - i = (k - (i + 1)) + 1 := by omega
      simp only [executeHostLoop, hc, ho, hr, Bool.not_true, if_neg, hrec, hn,
        List.range'_succ]
      simp
    · have hik' : i = k := Nat.le_antisymm hle hik
      subst hik'
      simp [executeHostLoop, hk]

/-- C9, confirmed: in the per-host session loop, cancellation is checked
before every new session; with all session opens and runs succeeding
until cancellation is first observed at check `k` (with further lines
remaining), exactly the `k` earlier sessions are opened, each of those
runs to completion (no in-flight run is interrupted by the check), no
session at or after `k` is opened, and the loop returns the context's
cancellation error. -/
theorem executeHost_checks_cancellation (host : String)
    (cancelled sessOpen runOk : Nat → Bool) (scripts : List String) (k : Nat)
    (hk : cancelled k = true)
    (hlen : k < scripts.length)
    (hpre : ∀ i, i < k → cancelled i = false ∧ sessOpen i = true ∧ runOk i = true) :
    executeHost host cancelled sessOpen runOk scripts
      = (List.range k, List.range k, some .cancelled) := by
  have := executeHostLoop_cancelled host cancelled sessOpen runOk k hk hpre scripts 0
    (Nat.zero_le k) (by omega)
  simpa [executeHost, List.range_eq_range'] using this

/-- Witness for C9 at a concrete input: three script lines, cancellation
first observed at the third check. -/
theorem executeHost_checks_cancellation_witness :
    executeHost "h" (fun i => decide (2 ≤ i)) (fun _ => true) (fun _ => true)
      ["l0", "l1", "l2"]
      = (List.range 2, List.range 2, some .cancelled) := by
  exact executeHost_checks_cancellation "h" (fun i => decide (2 ≤ i))
    (fun _ => true) (fun _ => true) ["l0", "l1", "l2"] 2 (by decide) (by decide)
    (by decide)

/-! ### C10 — empty command name resolves to the default command -/

lemma goSearchLoop_all_true (f : Nat → Bool) (hf : ∀ k, f k = true) :
    ∀ fuel i j, goSearchLoop f fuel i j = i := by
  intro fuel
  induction fuel with
  | zero => intro i j; rfl
  | succ n ih =>
    intro i j
    by_cases hij : i < j
    · simp [goSearchLoop, hij, hf, ih]
    · simp [goSearchLoop, hij]

lemma goStrLe_empty (s : String) : goStrLe "" s = true := by
  have : goStrLtL s.data "".data = false := by
    cases s.data <;> rfl
  simp [goStrLe, goStrLt, this]

lemma searchStrings_empty (a : List String) : searchStrings a "" = 0 := by
  unfold searchStrings goSearch
  exact goSearchLoop_all_true _ (fun k => by simp [goStrLe_empty]) a.length 0 a.length

lemma aliasScan_empty_none (r : Registry)
    (hno : ∀ p ∈ r, ∀ s, p.2 = Command.single s → "" ∉ s.aliases) :
    aliasScan r "" = none := by
  induction r with
  | nil => rfl
  | cons p rest ih =>
    obtain ⟨k, c⟩ := p
    have ihr : aliasScan rest "" = none := by
      refine ih ?_
      intro q hq s hs
      exact hno q (List.mem_cons_of_mem _ hq) s hs
    cases c with
    | combined cs => simpa [aliasScan] using ihr
    | single s =>
      have hmem : "" ∉ s.aliases := hno (k, .single s) (List.mem_cons_self _ _) s rfl
      cases ha : s.aliases with
      | nil =>
        have h0 := searchStrings_empty ([] : List String)
        simp [aliasScan, ha, h0, ihr]
      | cons a t =>
        have hne : ¬a = "" := by
          intro hc
          subst hc
          rw [ha] at hmem
          exact hmem (List.mem_cons_self _ _)
        have h0 := searchStrings_empty (a :: t)
        simp [aliasScan, ha, h0, ihr, hne]

/-- C10, confirmed: `lookup` (and `prepare`, which `execute` routes
through) substitutes the configured `.DEFAULT` name for an empty command
name before searching, so an empty name finds the default command's
registry entry; and when no default is configured and neither a command
nor an alias matches the empty string, it fails with the
command-not-defined lookup error (which `prepare` decorates with the
suggestion wrapper). -/
theorem lookup_empty_uses_default (m : Mst) :
    (∀ c, mapFind m.commands m.dfault = some c →
        lookup m "" = .ok c ∧ prepare m "" = .ok c)
    ∧ (m.dfault = "" → mapFind m.commands "" = none →
        (∀ p ∈ m.commands, ∀ s, p.2 = Command.single s → "" ∉ s.aliases) →
        lookup m "" = .error (.notDefined "")
        ∧ prepare m "" = .error (.suggested "" (.notDefined ""))) := by
  constructor
  · intro c h
    constructor
    · simp [lookup, h]
    · simp [prepare, lookup, h]
  · intro hdef hfind hno
    have hl : lookup m "" = .error (.notDefined "") := by
      simp [lookup, hdef, hfind, aliasScan_empty_none m.commands hno]
    exact ⟨hl, by simp [prepare, hl]⟩

/-- Witness for C10 at concrete inputs: a registry whose default is
`build` resolves the empty name to `build`'s definition, and a registry
with no default and no empty-string alias fails with the lookup error. -/
theorem lookup_empty_uses_default_witness :
    lookup { commands := [("build", .single { name := "build", aliases := [], deps := [] })],
             dfault := "build" } ""
      = .ok (.single { name := "build", aliases := [], deps := [] })
    ∧ lookup { commands := [("x", .single { name := "x", aliases := ["y"], deps := [] })] } ""
      = .error (.notDefined "") := by
  constructor
  · exact ((lookup_empty_uses_default
      { commands := [("build", .single { name := "build", aliases := [], deps := [] })],
        dfault := "build" }).1
      (.single { name := "build", aliases := [], deps := [] }) rfl).1
  · exact ((lookup_empty_uses_default
      { commands := [("x", .single { name := "x", aliases := ["y"], deps := [] })] }).2
      rfl rfl
      (by intro p hp s hs
          simp only [List.mem_singleton] at hp
          subst hp
          cases hs
          simp)).1

end Maestro
